import Mathlib

/-!
# Debate bot: challenge / debate lifecycle and rating update

A shallow embedding of the core of `src/index.js`: the three in-memory stores
(`userData`, `activeDebates`, `pendingChallenges`), the helper `getUser`, the rating
function `calculateRepChange`, the three mutating handlers (`handleChallenge`,
`handleButtonInteraction`, `handleEndDebate`) and the two timer callbacks.

Modelling conventions.
* A JavaScript `Map` is an association list in insertion order (`JsMap`).
* User, challenge and debate ids are strings in the source; they are natural numbers here.
  `generateId()` draws a random id; the drawn id is an argument of the handler.
* A handler runs synchronously up to its first `await`; every store mutation of every handler
  happens before that point, so a handler is one atomic state transformer. The reply that the
  handler sends is returned next to the new state.
* `handleChallenge` can throw before it replies (no guild or channel on the interaction, or a
  topic that the embed builder refuses). It then returns `Reply.threw` with the stores as
  they are at the throw; the statements after the throw, among them the reply and the
  `setTimeout` call, do not run.
* `setTimeout` callbacks are state transformers of their own (`challengeExpiry`,
  `debateExpiry`); the closure of a scheduled debate timer is recorded in the state.
* JavaScript numbers are mathematical integers here (no value approaches 2^53).
  `calculateRepChange` is computed in exact arithmetic: `Math.pow` and the division are taken
  as real-number operations (`calculateRepChangeReal`), and the executable `calculateRepChange`
  is proved equal to that value.
-/

set_option exponentiation.threshold 512

namespace DebateBot

/-! ## JavaScript `Map` -/

/-- A JavaScript `Map`: key/value entries in insertion order. -/
abbrev JsMap (K V : Type) := List (K × V)

namespace JsMap

variable {K V : Type} [DecidableEq K]

/-- Method `Map.prototype.get`: the value stored under `k`, `none` for `undefined`. -/
def get : JsMap K V → K → Option V
  | [], _ => none
  | (k', v) :: m, k => if k' = k then some v else get m k

/-- Method `Map.prototype.has`. -/
def has (m : JsMap K V) (k : K) : Bool := (get m k).isSome

/-- Method `Map.prototype.set`: overwrite in place when the key is present, append
otherwise. -/
def set : JsMap K V → K → V → JsMap K V
  | [], k, v => [(k, v)]
  | (k', v') :: m, k, v => if k' = k then (k, v) :: m else (k', v') :: set m k v

/-- Method `Map.prototype.delete`: drop the entry stored under `k` (a `Map` holds at most
one entry per key). -/
def delete (m : JsMap K V) (k : K) : JsMap K V := m.filter (fun e => decide (e.1 ≠ k))

end JsMap

/-! ## Data model -/

abbrev UserId := Nat
abbrev ChallengeId := Nat
abbrev DebateId := Nat

/-- A key of `userData`: a user id, or `none` for the JavaScript value `undefined`
(which `handleEndDebate` passes to `getUser` when `participants.find` matches nothing). -/
abbrev UserKey := Option UserId

/-- The object stored in `userData` (index.js:29-35). -/
structure UserProfile where
  reputation : Int
  wins : Nat
  losses : Nat
  activeDebates : Int
  totalDebates : Nat
  deriving DecidableEq

/-- The object stored in `pendingChallenges` (index.js:197-206). -/
structure Challenge where
  id : ChallengeId
  challenger : UserId
  opponent : UserId
  topic : String
  duration : Nat
  createdAt : Nat
  guildId : Nat
  channelId : Nat
  deriving DecidableEq

/-- The `status` field of a debate. -/
inductive DebateStatus where
  | active
  | completed
  | expired
  deriving DecidableEq

/-- The object stored in `activeDebates` (index.js:266-276). -/
structure Debate where
  id : DebateId
  participants : List UserId
  topic : String
  duration : Nat
  startTime : Nat
  endTime : Nat
  status : DebateStatus
  guildId : Nat
  channelId : Nat
  deriving DecidableEq

/-- The closure of the debate timer scheduled at index.js:306-316: it captures `debateId`
and the `challenge` object (its `challenger` and `opponent`). -/
structure DebateTimer where
  debateId : DebateId
  challenger : UserId
  opponent : UserId
  deriving DecidableEq

/-- The module-level stores plus the debate timers that have been scheduled. -/
structure State where
  userData : JsMap UserKey UserProfile
  activeDebates : JsMap DebateId Debate
  pendingChallenges : JsMap ChallengeId Challenge
  debateTimers : List DebateTimer
  deriving DecidableEq

/-- The state at start-up: three empty maps, no timer. -/
def State.empty : State := ⟨[], [], [], []⟩

/-- The reply a handler sends (one constructor per `interaction.reply` / `update` call).
The constructor `threw` stands for a handler that threw an exception instead: no reply is
sent and nothing after the throwing statement runs. -/
inductive Reply where
  | selfChallenge
  | botOpponent
  | challengerLimit
  | opponentLimit
  | challengeIssued
  | threw
  | challengeGone
  | notChallenged
  | challengeAccepted
  | challengeDeclined
  | noReply
  | debateNotFound
  | debateNotActive
  | notParticipant
  | winnerNotParticipant
  | debateConcluded (repChange winnerRep loserRep : Int)
  deriving DecidableEq

/-! ## Helper functions -/

/-- The profile `getUser` creates (index.js:29-35). -/
def newUser : UserProfile :=
  { reputation := 1000, wins := 0, losses := 0, activeDebates := 0, totalDebates := 0 }

/-- Function `getUser` (index.js:27-38) as a map transformer: insert the default profile when
the key is absent. The object it returns is the entry now stored under `userId` (`userOf`). -/
def getUser (userData : JsMap UserKey UserProfile) (userId : UserKey) :
    JsMap UserKey UserProfile :=
  if JsMap.has userData userId then userData else JsMap.set userData userId newUser

/-- The object `getUser(userId)` returns: the stored profile, the default one when absent. -/
def userOf (userData : JsMap UserKey UserProfile) (userId : UserKey) : UserProfile :=
  (JsMap.get userData userId).getD newUser

/-- Mutating a field of the object returned by `getUser(userId)`: the entry under `userId`
(created if needed) is replaced by `f` of it. -/
def updateUser (userData : JsMap UserKey UserProfile) (userId : UserKey)
    (f : UserProfile → UserProfile) : JsMap UserKey UserProfile :=
  JsMap.set (getUser userData userId) userId (f (userOf userData userId))

/-- The `k`-th rounding threshold of `calculateRepChange` for `diff = loserRep - winnerRep`:
`k - 1/2 ≤ 32 * (1 - 1 / (1 + 10 ^ (diff / 400)))`, that is
`(2k - 1) ≤ (65 - 2k) * 10 ^ (diff / 400)`, compared after raising to the 400th power. -/
def repThreshold (k : Nat) (diff : Int) : Bool :=
  decide ((2 * k - 1) ^ 400 * 10 ^ (-diff).toNat ≤ (65 - 2 * k) ^ 400 * 10 ^ diff.toNat)

/-- Function `calculateRepChange` (index.js:44-49) in exact arithmetic:
`Math.round(32 * (1 - 1 / (1 + Math.pow(10, (loserRep - winnerRep) / 400))))`.
The value lies in `0..32`; it is the number of `k` in `1..32` with
`k - 1/2 ≤ 32 * (1 - expectedWin)`. Equality with the real-number reading of the source
expression is `calculateRepChange_eq_real`. (At integer ratings the exact value of
`32 * (1 - expectedWin)` stays more than `7e-4` away from every rounding tie `k - 1/2`, so
the rounding error of double arithmetic does not change the result.) -/
def calculateRepChange (winnerRep loserRep : Int) : Int :=
  (((List.range 32).filter (fun i => repThreshold (i + 1) (loserRep - winnerRep))).length : Nat)

/-- The exponent of `Math.pow` at index.js:47 and the resulting `expectedWin`, as real
numbers. -/
noncomputable def expectedWin (winnerRep loserRep : Int) : ℝ :=
  1 / (1 + (10 : ℝ) ^ ((((loserRep - winnerRep : Int) : ℝ)) / 400))

/-- Function `calculateRepChange` (index.js:44-49) read over the reals, expression by
expression: `kFactor = 32`, `expectedWin` as above, and `Math.round x = ⌊x + 1/2⌋` (ties go
up). -/
noncomputable def calculateRepChangeReal (winnerRep loserRep : Int) : Int :=
  ⌊(32 : ℝ) * (1 - expectedWin winnerRep loserRep) + 1 / 2⌋

/-! ## `/challenge` -/

/-- What `handleChallenge` reads from the interaction: the invoking user, the `opponent`
option (id and `bot` flag), the `topic` and optional `duration` options, the guild and channel,
and the clock. The command is registered globally, so it can be invoked outside a guild:
`guildId` is `none` when `interaction.guild` is `null`, `channelId` is `none` when
`interaction.channel` is `null`. -/
structure ChallengeRequest where
  challenger : UserId
  opponent : UserId
  opponentBot : Bool
  topic : String
  duration : Option Nat
  guildId : Option Nat
  channelId : Option Nat
  now : Nat
  deriving DecidableEq

/-- The `length` of a JavaScript string: the number of UTF-16 code units. -/
def jsLength (str : String) : Nat :=
  (str.toList.map (fun c => if c.toNat < 65536 then 1 else 2)).sum

/-- The check that `EmbedBuilder.addFields` (discord.js, called at index.js:215-220) makes on
a field value: a string of 1 to 1024 code units; it throws on any other value. The topic is
the only field value of the challenge embed that the user controls. -/
def embedFieldValueOk (value : String) : Bool :=
  decide (1 ≤ jsLength value) && decide (jsLength value ≤ 1024)

/-- The expression `getInteger(duration) || 30` (index.js:173):
`null` and `0` are falsy. -/
def durationOrDefault : Option Nat → Nat
  | none => 30
  | some 0 => 30
  | some d => d

/-- Handler `handleChallenge` (index.js:169-249); `challengeId` is the value of
`generateId()`. Both `getUser` calls run before the limit checks, so the two limit replies
return the state with the profiles `getUser` created. Building the challenge object
dereferences `interaction.guild` and `interaction.channel` (lines 204-205): when either is
`null` the handler throws there, after the profiles were created and before anything is
stored. The challenge is stored at line 208; the embed is built afterwards, and `addFields`
throws when it refuses the topic: the challenge is then already stored, and neither the
reply (line 237) nor the `setTimeout` call (line 244) runs. -/
def handleChallenge (s : State) (r : ChallengeRequest) (challengeId : ChallengeId) :
    State × Reply :=
  let duration := durationOrDefault r.duration
  if r.opponent = r.challenger then (s, Reply.selfChallenge)
  else if r.opponentBot then (s, Reply.botOpponent)
  else
    let users1 := getUser s.userData (some r.challenger)
    let users2 := getUser users1 (some r.opponent)
    let s2 : State := { s with userData := users2 }
    if (userOf users2 (some r.challenger)).activeDebates ≥ 3 then (s2, Reply.challengerLimit)
    else if (userOf users2 (some r.opponent)).activeDebates ≥ 3 then (s2, Reply.opponentLimit)
    else
      match r.guildId, r.channelId with
      | some guildId, some channelId =>
        let challenge : Challenge :=
          { id := challengeId, challenger := r.challenger, opponent := r.opponent,
            topic := r.topic, duration := duration, createdAt := r.now,
            guildId := guildId, channelId := channelId }
        let s3 : State :=
          { s2 with pendingChallenges := JsMap.set s2.pendingChallenges challengeId challenge }
        if embedFieldValueOk r.topic then (s3, Reply.challengeIssued)
        else (s3, Reply.threw)
      | _, _ => (s2, Reply.threw)

/-- The challenge timer callback (index.js:244-248), for the captured `challengeId`. -/
def challengeExpiry (s : State) (challengeId : ChallengeId) : State :=
  if JsMap.has s.pendingChallenges challengeId then
    { s with pendingChallenges := JsMap.delete s.pendingChallenges challengeId }
  else s

/-! ## Accept / decline buttons -/

/-- The first component of `interaction.customId` split at the underscore. The bot only
creates buttons `accept_<id>` and `decline_<id>`; `other` stands for any other string. -/
inductive ButtonAction where
  | accept
  | decline
  | other
  deriving DecidableEq

/-- Handler `handleButtonInteraction` (index.js:251-333). `userId` is `interaction.user.id`,
`debateId` the value of `generateId()` (drawn only on accept), `now` the value of both
`Date.now()` calls. On accept the debate timer is scheduled: its closure is appended to
`debateTimers`. -/
def handleButtonInteraction (s : State) (action : ButtonAction) (challengeId : ChallengeId)
    (userId : UserId) (debateId : DebateId) (now : Nat) : State × Reply :=
  match JsMap.get s.pendingChallenges challengeId with
  | none => (s, Reply.challengeGone)
  | some challenge =>
    if userId ≠ challenge.opponent then (s, Reply.notChallenged)
    else
      match action with
      | ButtonAction.accept =>
        let debate : Debate :=
          { id := debateId, participants := [challenge.challenger, challenge.opponent],
            topic := challenge.topic, duration := challenge.duration,
            startTime := now, endTime := now + challenge.duration * 60 * 1000,
            status := DebateStatus.active,
            guildId := challenge.guildId, channelId := challenge.channelId }
        let debates1 := JsMap.set s.activeDebates debateId debate
        let users1 := updateUser s.userData (some challenge.challenger)
          (fun u => { u with activeDebates := u.activeDebates + 1 })
        let users2 := updateUser users1 (some challenge.opponent)
          (fun u => { u with activeDebates := u.activeDebates + 1 })
        ({ userData := users2, activeDebates := debates1,
           pendingChallenges := JsMap.delete s.pendingChallenges challengeId,
           debateTimers := s.debateTimers ++
             [⟨debateId, challenge.challenger, challenge.opponent⟩] },
          Reply.challengeAccepted)
      | ButtonAction.decline =>
        ({ s with pendingChallenges := JsMap.delete s.pendingChallenges challengeId },
          Reply.challengeDeclined)
      | ButtonAction.other => (s, Reply.noReply)

/-- The debate timer callback (index.js:306-316) for the closure `t`. -/
def debateExpiry (s : State) (t : DebateTimer) : State :=
  match JsMap.get s.activeDebates t.debateId with
  | none => s
  | some debate =>
    if debate.status = DebateStatus.active then
      let debates1 := JsMap.set s.activeDebates t.debateId
        { debate with status := DebateStatus.expired }
      let users1 := updateUser s.userData (some t.challenger)
        (fun u => { u with activeDebates := u.activeDebates - 1 })
      let users2 := updateUser users1 (some t.opponent)
        (fun u => { u with activeDebates := u.activeDebates - 1 })
      { s with userData := users2, activeDebates := debates1 }
    else s

/-! ## `/enddebate` -/

/-- Handler `handleEndDebate` (index.js:402-456). `userId` is `interaction.user.id`, `winner`
the id of the `winner` option. `winnerData` and `loserData` are the objects stored under the
keys `winner` and `loser`; the keys differ (`find` returns an id other than `winner`, or
`undefined`), so the two objects never alias. -/
def handleEndDebate (s : State) (debateId : DebateId) (userId winner : UserId) :
    State × Reply :=
  match JsMap.get s.activeDebates debateId with
  | none => (s, Reply.debateNotFound)
  | some debate =>
    if debate.status ≠ DebateStatus.active then (s, Reply.debateNotActive)
    else if ¬ userId ∈ debate.participants then (s, Reply.notParticipant)
    else if ¬ winner ∈ debate.participants then (s, Reply.winnerNotParticipant)
    else
      let debates1 := JsMap.set s.activeDebates debateId
        { debate with status := DebateStatus.completed }
      let loser : UserKey := debate.participants.find? (fun id => decide (id ≠ winner))
      let users1 := getUser s.userData (some winner)
      let users2 := getUser users1 loser
      let winnerData := userOf users2 (some winner)
      let loserData := userOf users2 loser
      let repChange := calculateRepChange winnerData.reputation loserData.reputation
      let winnerData1 : UserProfile :=
        { reputation := winnerData.reputation + repChange, wins := winnerData.wins + 1,
          losses := winnerData.losses, activeDebates := winnerData.activeDebates - 1,
          totalDebates := winnerData.totalDebates + 1 }
      let loserData1 : UserProfile :=
        { reputation := max 100 (loserData.reputation - repChange), wins := loserData.wins,
          losses := loserData.losses + 1, activeDebates := loserData.activeDebates - 1,
          totalDebates := loserData.totalDebates + 1 }
      let users3 := JsMap.set users2 (some winner) winnerData1
      let users4 := JsMap.set users3 loser loserData1
      ({ s with userData := users4, activeDebates := JsMap.delete debates1 debateId },
        Reply.debateConcluded repChange winnerData1.reputation loserData1.reputation)

/-- Handler `handleDebates` (index.js:380-381): the filter selecting the active debates of
`userId`. -/
def userDebates (s : State) (userId : UserId) : List Debate :=
  (s.activeDebates.map (fun e => e.2)).filter
    (fun debate =>
      decide (userId ∈ debate.participants) && decide (debate.status = DebateStatus.active))

/-- Number of debates that `handleDebates` would list for `u`: the debates in the store
with status active whose participants include `u`. -/
def activeDebateCount (s : State) (u : UserId) : Nat := (userDebates s u).length

/-- Number of values of a map that satisfy `p`. -/
def JsMap.count {K V : Type} (p : V → Bool) (m : JsMap K V) : Nat :=
  ((m.map (fun e => e.2)).filter p).length

/-- The profile of the winner after a resolve with rating change `δ`. -/
def winProfile (p : UserProfile) (δ : Int) : UserProfile :=
  { reputation := p.reputation + δ, wins := p.wins + 1, losses := p.losses,
    activeDebates := p.activeDebates - 1, totalDebates := p.totalDebates + 1 }

/-- The profile of the loser after a resolve with rating change `δ`. -/
def lossProfile (p : UserProfile) (δ : Int) : UserProfile :=
  { reputation := max 100 (p.reputation - δ), wins := p.wins, losses := p.losses + 1,
    activeDebates := p.activeDebates - 1, totalDebates := p.totalDebates + 1 }

/-! ## Executions -/

/-- One event of the bot. Every handler call and every timer callback is a step; the ids are
the values drawn by `generateId()`. A debate id drawn on accept is fresh: it differs from
every debate id drawn before (each of which has a scheduled timer). A debate timer that
fires is one that has been scheduled. -/
inductive Step : State → State → Prop
  | issue (s : State) (r : ChallengeRequest) (challengeId : ChallengeId) :
      Step s (handleChallenge s r challengeId).1
  | respond (s : State) (action : ButtonAction) (challengeId : ChallengeId) (userId : UserId)
      (debateId : DebateId) (now : Nat)
      (fresh : action = ButtonAction.accept → ∀ t ∈ s.debateTimers, t.debateId ≠ debateId) :
      Step s (handleButtonInteraction s action challengeId userId debateId now).1
  | resolve (s : State) (debateId : DebateId) (userId winner : UserId) :
      Step s (handleEndDebate s debateId userId winner).1
  | challengeTimeout (s : State) (challengeId : ChallengeId) :
      Step s (challengeExpiry s challengeId)
  | debateTimeout (s : State) (t : DebateTimer) (scheduled : t ∈ s.debateTimers) :
      Step s (debateExpiry s t)

/-- The states reachable from the start-up state. -/
inductive Reachable : State → Prop
  | init : Reachable State.empty
  | step {s s2 : State} : Reachable s → Step s s2 → Reachable s2

/-- The invariant that links the stores: debate ids are unique keys, pending challenges are
between two different users, every scheduled timer matches the debate stored under its id,
every stored debate has its timer, and every counter equals the number of active debates. -/
structure Inv (s : State) : Prop where
  nodup : (s.activeDebates.map Prod.fst).Nodup
  chal : ∀ id c, JsMap.get s.pendingChallenges id = some c → c.challenger ≠ c.opponent
  timer : ∀ t ∈ s.debateTimers, t.challenger ≠ t.opponent ∧
    ∀ d, JsMap.get s.activeDebates t.debateId = some d →
      d.participants = [t.challenger, t.opponent]
  deb : ∀ id d, JsMap.get s.activeDebates id = some d →
    ∃ t ∈ s.debateTimers, t.debateId = id
  count : ∀ u, (userOf s.userData (some u)).activeDebates = (activeDebateCount s u : Int)

/-! ## Concrete executions -/

/-- A challenge request from `challenger` to the (human) user `opponent`, 10 minutes. -/
def demoRequest (challenger opponent : UserId) : ChallengeRequest :=
  { challenger := challenger, opponent := opponent, opponentBot := false, topic := "tabs",
    duration := some 10, guildId := some 7, channelId := some 8, now := 0 }

/-- User 1 challenges user 2 (challenge id 10). -/
def demoIssued : State := (handleChallenge State.empty (demoRequest 1 2) 10).1

/-- User 2 accepts challenge 10; the debate gets id 20. -/
def demoAccepted : State :=
  (handleButtonInteraction demoIssued ButtonAction.accept 10 2 20 0).1

/-- The debate stored under id 20 in `demoAccepted`. -/
def demoDebate : Debate :=
  { id := 20, participants := [1, 2], topic := "tabs", duration := 10, startTime := 0,
    endTime := 600000, status := DebateStatus.active, guildId := 7, channelId := 8 }

/-- User 1 challenges user 2 four times (challenge ids 10, 11, 12, 13) while neither has an
active debate. -/
def fourChallenges : State :=
  (handleChallenge (handleChallenge (handleChallenge demoIssued
    (demoRequest 1 2) 11).1 (demoRequest 1 2) 12).1 (demoRequest 1 2) 13).1

/-- User 2 then accepts challenges 10, 11 and 12 (debate ids 20, 21, 22). -/
def threeAccepted : State :=
  (handleButtonInteraction (handleButtonInteraction (handleButtonInteraction fourChallenges
    ButtonAction.accept 10 2 20 0).1 ButtonAction.accept 11 2 21 0).1
    ButtonAction.accept 12 2 22 0).1

/-- A topic of 1025 characters. -/
def longTopic : String := String.mk (List.replicate 1025 'a')

/-- The request of `demoRequest 1 2` with the topic `longTopic`. -/
def longTopicRequest : ChallengeRequest :=
  { demoRequest 1 2 with topic := longTopic }

/-- The request of `demoRequest 1 2` sent outside a guild (`interaction.guild` is `null`). -/
def directMessageRequest : ChallengeRequest :=
  { demoRequest 1 2 with guildId := none }

/-- Every stored profile has reputation at least 100. -/
def RepOk (m : JsMap UserKey UserProfile) : Prop :=
  ∀ k p, JsMap.get m k = some p → 100 ≤ p.reputation

/-- Two users with rating 105 in an active debate (id 20). -/
def lowRated : State :=
  { userData := [(some 1, { reputation := 105, wins := 0, losses := 9, activeDebates := 1,
                             totalDebates := 9 }),
                 (some 2, { reputation := 105, wins := 0, losses := 9, activeDebates := 1,
                             totalDebates := 9 })],
    activeDebates := [(20, demoDebate)],
    pendingChallenges := [],
    debateTimers := [⟨20, 1, 2⟩] }

/-! ## Store lemmas -/

namespace JsMap

variable {K V : Type} [DecidableEq K]

theorem get_set_self (m : JsMap K V) (k : K) (v : V) : get (set m k v) k = some v := by
  induction m with
  | nil => simp [set, get]
  | cons e m ih =>
    obtain ⟨k', v'⟩ := e
    by_cases h : k' = k <;> simp [set, get, h, ih]

theorem get_set_of_ne (m : JsMap K V) {k k' : K} (v : V) (h : k' ≠ k) :
    get (set m k v) k' = get m k' := by
  induction m with
  | nil => simp [set, get, Ne.symm h]
  | cons e m ih =>
    obtain ⟨k0, v0⟩ := e
    by_cases h0 : k0 = k
    · subst h0
      simp [set, get, Ne.symm h]
    · by_cases h1 : k0 = k'
      · subst h1
        simp [set, get, h0]
      · simp [set, get, h0, h1, ih]

theorem get_delete_self (m : JsMap K V) (k : K) : get (delete m k) k = none := by
  induction m with
  | nil => simp [delete, get]
  | cons e m ih =>
    obtain ⟨k', v'⟩ := e
    by_cases h : k' = k
    · simpa [delete, h] using ih
    · simpa [delete, List.filter_cons, h, get] using ih

theorem get_delete_of_ne (m : JsMap K V) {k k' : K} (h : k' ≠ k) :
    get (delete m k) k' = get m k' := by
  induction m with
  | nil => simp [delete, get]
  | cons e m ih =>
    obtain ⟨k0, v0⟩ := e
    by_cases h0 : k0 = k
    · subst h0
      simpa [delete, get, Ne.symm h] using ih
    · by_cases h1 : k0 = k'
      · subst h1
        simp [delete, List.filter_cons, h0, get]
      · simpa [delete, List.filter_cons, h0, get, h1] using ih

theorem get_eq_none_iff (m : JsMap K V) (k : K) : get m k = none ↔ k ∉ m.map Prod.fst := by
  induction m with
  | nil => simp [get]
  | cons e m ih =>
    obtain ⟨k', v'⟩ := e
    by_cases h : k' = k
    · simp [get, h]
    · simp [get, h, ih, Ne.symm h]

theorem set_of_get_none (m : JsMap K V) (k : K) (v : V) (h : get m k = none) :
    set m k v = m ++ [(k, v)] := by
  induction m with
  | nil => simp [set]
  | cons e m ih =>
    obtain ⟨k', v'⟩ := e
    by_cases h0 : k' = k
    · simp [get, h0] at h
    · simp only [get, h0, if_false] at h
      simp [set, h0, ih h]

theorem delete_of_get_none (m : JsMap K V) (k : K) (h : get m k = none) : delete m k = m := by
  induction m with
  | nil => simp [delete]
  | cons e m ih =>
    obtain ⟨k', v'⟩ := e
    by_cases h0 : k' = k
    · simp [get, h0] at h
    · simp only [get, h0, if_false] at h
      have := ih h
      simp only [delete] at this ⊢
      rw [List.filter_cons]
      simp only [ne_eq, h0, not_false_eq_true, decide_True, if_true, this]

theorem keys_set_of_get_some (m : JsMap K V) (k : K) (v v0 : V) (h : get m k = some v0) :
    (set m k v).map Prod.fst = m.map Prod.fst := by
  induction m with
  | nil => simp [get] at h
  | cons e m ih =>
    obtain ⟨k', v'⟩ := e
    by_cases h0 : k' = k
    · simp [set, h0]
    · simp only [get, h0, if_false] at h
      simp [set, h0, ih h]

theorem delete_set_self (m : JsMap K V) (k : K) (v : V) : delete (set m k v) k = delete m k := by
  induction m with
  | nil => simp [set, delete]
  | cons e m ih =>
    obtain ⟨k', v'⟩ := e
    by_cases h0 : k' = k
    · simp [set, delete, h0]
    · simp only [delete] at ih ⊢
      simp only [set, h0, if_false, List.filter_cons, ne_eq, not_false_eq_true, decide_True,
        if_true, ih]

theorem nodup_keys_delete (m : JsMap K V) (k : K) (h : (m.map Prod.fst).Nodup) :
    ((delete m k).map Prod.fst).Nodup := by
  unfold delete
  exact (List.filter_sublist m).map Prod.fst |>.nodup h

theorem nodup_keys_set (m : JsMap K V) (k : K) (v : V) (h : (m.map Prod.fst).Nodup) :
    ((set m k v).map Prod.fst).Nodup := by
  cases hg : get m k with
  | none =>
    rw [set_of_get_none m k v hg, List.map_append]
    have := (get_eq_none_iff m k).1 hg
    simp only [List.map_cons, List.map_nil]
    exact List.Nodup.append h (List.nodup_singleton k) (by simpa using this)
  | some v0 => rw [keys_set_of_get_some m k v v0 hg]; exact h

end JsMap

namespace JsMap
variable {K V : Type} [DecidableEq K]

omit [DecidableEq K] in
theorem count_cons (p : V → Bool) (e : K × V) (m : JsMap K V) :
    count p (e :: m) = (if p e.2 then 1 else 0) + count p m := by
  unfold count
  by_cases h : p e.2 <;> simp [List.filter_cons, h, Nat.add_comm]

theorem count_set_of_get_none (p : V → Bool) (m : JsMap K V) (k : K) (v : V)
    (h : get m k = none) : count p (set m k v) = count p m + (if p v then 1 else 0) := by
  rw [set_of_get_none m k v h]
  unfold count
  by_cases hp : p v <;> simp [List.filter_cons, hp]

theorem count_delete_of_get_some (p : V → Bool) (m : JsMap K V) (k : K) (v0 : V)
    (hn : (m.map Prod.fst).Nodup) (h : get m k = some v0) :
    count p (delete m k) + (if p v0 then 1 else 0) = count p m := by
  induction m with
  | nil => simp [get] at h
  | cons e m ih =>
    obtain ⟨k', v'⟩ := e
    rw [List.map_cons, List.nodup_cons] at hn
    by_cases h0 : k' = k
    · subst h0
      simp only [get, if_true, Option.some.injEq] at h
      subst h
      have hd : delete ((k', v') :: m) k' = m := by
        have := delete_of_get_none m k' ((get_eq_none_iff m k').2 hn.1)
        simp only [delete] at this ⊢
        rw [List.filter_cons]
        simpa using this
      rw [hd, count_cons, Nat.add_comm]
    · simp only [get, h0, if_false] at h
      have hd : delete ((k', v') :: m) k = (k', v') :: delete m k := by
        simp only [delete]
        rw [List.filter_cons]
        simp [h0]
      rw [hd, count_cons, count_cons, Nat.add_assoc, ih hn.2 h]

theorem count_set_of_get_some (p : V → Bool) (m : JsMap K V) (k : K) (v v0 : V)
    (hn : (m.map Prod.fst).Nodup) (h : get m k = some v0) :
    count p (set m k v) + (if p v0 then 1 else 0) = count p m + (if p v then 1 else 0) := by
  induction m with
  | nil => simp [get] at h
  | cons e m ih =>
    obtain ⟨k', v'⟩ := e
    rw [List.map_cons, List.nodup_cons] at hn
    by_cases h0 : k' = k
    · subst h0
      simp only [get, if_true, Option.some.injEq] at h
      subst h
      simp only [set, if_true, count_cons]
      omega
    · simp only [get, h0, if_false] at h
      have := ih hn.2 h
      simp only [set, h0, if_false, count_cons]
      omega

end JsMap

theorem userOf_getUser (m : JsMap UserKey UserProfile) (k k' : UserKey) :
    userOf (getUser m k) k' = userOf m k' := by
  unfold getUser userOf JsMap.has
  cases h : JsMap.get m k with
  | some p => simp
  | none =>
    by_cases hk : k' = k
    · subst hk
      simp [JsMap.get_set_self, h]
    · simp [JsMap.get_set_of_ne m newUser hk]

theorem userOf_updateUser (m : JsMap UserKey UserProfile) (k k' : UserKey)
    (f : UserProfile → UserProfile) :
    userOf (updateUser m k f) k' = if k' = k then f (userOf m k) else userOf m k' := by
  unfold updateUser
  by_cases hk : k' = k
  · subst hk
    simp [userOf, JsMap.get_set_self]
  · have := userOf_getUser m k k'
    simp only [userOf] at this ⊢
    simp [JsMap.get_set_of_ne _ _ hk, hk, this]

theorem userOf_set (m : JsMap UserKey UserProfile) (k k' : UserKey) (p : UserProfile) :
    userOf (JsMap.set m k p) k' = if k' = k then p else userOf m k' := by
  by_cases hk : k' = k
  · subst hk
    simp [userOf, JsMap.get_set_self]
  · simp [userOf, JsMap.get_set_of_ne _ _ hk, hk]

theorem activeDebateCount_eq (s : State) (u : UserId) :
    activeDebateCount s u = JsMap.count (fun debate : Debate =>
      decide (u ∈ debate.participants) && decide (debate.status = DebateStatus.active))
      s.activeDebates := rfl



theorem inv_empty : Inv State.empty := by
  refine ⟨by simp [State.empty], ?_, ?_, ?_, ?_⟩
  · intro id c h; simp [State.empty, JsMap.get] at h
  · intro t h; simp [State.empty] at h
  · intro id d h; simp [State.empty, JsMap.get] at h
  · intro u; simp [State.empty, userOf, JsMap.get, activeDebateCount, userDebates, newUser]

theorem inv_handleChallenge (s : State) (r : ChallengeRequest) (challengeId : ChallengeId)
    (h : Inv s) : Inv (handleChallenge s r challengeId).1 := by
  have key : ∀ pc : JsMap ChallengeId Challenge,
      (∀ id c, JsMap.get pc id = some c → c.challenger ≠ c.opponent) →
      Inv { s with userData := getUser (getUser s.userData (some r.challenger)) (some r.opponent),
                   pendingChallenges := pc } := by
    intro pc hpc
    refine ⟨h.nodup, hpc, h.timer, h.deb, ?_⟩
    intro u
    simp only [userOf_getUser]
    exact h.count u
  have stored : ∀ challenge : Challenge, challenge.challenger ≠ challenge.opponent →
      ∀ id c, JsMap.get (JsMap.set s.pendingChallenges challengeId challenge) id = some c →
        c.challenger ≠ c.opponent := by
    intro challenge hne id c hc
    by_cases hid : id = challengeId
    · subst hid
      rw [JsMap.get_set_self] at hc
      cases hc
      exact hne
    · rw [JsMap.get_set_of_ne _ _ hid] at hc
      exact h.chal id c hc
  unfold handleChallenge
  simp only
  split_ifs with h1
  all_goals first
    | exact h
    | exact key _ h.chal
    | (split
       · exact key _ (stored _ (fun e => h1 e.symm))
       · exact key _ h.chal)

theorem inv_challengeExpiry (s : State) (challengeId : ChallengeId) (h : Inv s) :
    Inv (challengeExpiry s challengeId) := by
  unfold challengeExpiry
  split_ifs
  · refine ⟨h.nodup, ?_, h.timer, h.deb, h.count⟩
    intro id c hc
    by_cases hid : id = challengeId
    · subst hid
      simp [JsMap.get_delete_self] at hc
    · rw [JsMap.get_delete_of_ne _ hid] at hc
      exact h.chal id c hc
  · exact h



theorem chal_delete (s : State) (challengeId : ChallengeId) (h : Inv s) :
    ∀ id c, JsMap.get (JsMap.delete s.pendingChallenges challengeId) id = some c →
      c.challenger ≠ c.opponent := by
  intro id c hc
  by_cases hid : id = challengeId
  · subst hid
    simp [JsMap.get_delete_self] at hc
  · rw [JsMap.get_delete_of_ne _ hid] at hc
    exact h.chal id c hc

theorem get_none_of_fresh (s : State) (debateId : DebateId) (h : Inv s)
    (fresh : ∀ t ∈ s.debateTimers, t.debateId ≠ debateId) :
    JsMap.get s.activeDebates debateId = none := by
  cases hg : JsMap.get s.activeDebates debateId with
  | none => rfl
  | some d =>
    obtain ⟨t, ht, hid⟩ := h.deb debateId d hg
    exact absurd hid (fresh t ht)

theorem inv_handleButtonInteraction (s : State) (action : ButtonAction)
    (challengeId : ChallengeId) (userId : UserId) (debateId : DebateId) (now : Nat)
    (fresh : action = ButtonAction.accept → ∀ t ∈ s.debateTimers, t.debateId ≠ debateId)
    (h : Inv s) : Inv (handleButtonInteraction s action challengeId userId debateId now).1 := by
  unfold handleButtonInteraction
  cases hg : JsMap.get s.pendingChallenges challengeId with
  | none => exact h
  | some challenge =>
    simp only
    split_ifs with h1
    · exact h
    · cases action with
      | other => exact h
      | decline => exact ⟨h.nodup, chal_delete s challengeId h, h.timer, h.deb, h.count⟩
      | accept =>
        have hfresh := fresh rfl
        have hnone := get_none_of_fresh s debateId h hfresh
        have hne := h.chal challengeId challenge hg
        simp only
        refine ⟨?_, chal_delete s challengeId h, ?_, ?_, ?_⟩
        · exact JsMap.nodup_keys_set _ _ _ h.nodup
        · intro t ht
          simp only [List.mem_append, List.mem_singleton] at ht
          rcases ht with ht | ht
          · refine ⟨(h.timer t ht).1, ?_⟩
            intro d hd
            rw [JsMap.get_set_of_ne _ _ (hfresh t ht)] at hd
            exact (h.timer t ht).2 d hd
          · subst ht
            refine ⟨hne, ?_⟩
            intro d hd
            simp only [JsMap.get_set_self, Option.some.injEq] at hd
            subst hd
            rfl
        · intro id d hd
          by_cases hid : id = debateId
          · exact ⟨⟨debateId, challenge.challenger, challenge.opponent⟩, by simp, hid.symm⟩
          · rw [JsMap.get_set_of_ne _ _ hid] at hd
            obtain ⟨t, ht, e⟩ := h.deb id d hd
            exact ⟨t, by simp [ht], e⟩
        · intro u
          have hc := h.count u
          rw [activeDebateCount_eq] at hc ⊢
          simp only
          rw [JsMap.count_set_of_get_none _ _ _ _ hnone]
          simp only [userOf_updateUser, Option.some.injEq]
          by_cases hu1 : u = challenge.opponent
          · have hu2 : u ≠ challenge.challenger := fun e => hne (e.symm.trans hu1)
            simp [hu1, hu2, hc, Ne.symm hne] at hc ⊢
            omega
          · by_cases hu2 : u = challenge.challenger
            · simp [hu1, hu2, hc, hne] at hc ⊢
              omega
            · simp [hu1, hu2, hc]



theorem inv_debateExpiry (s : State) (t : DebateTimer) (ht : t ∈ s.debateTimers)
    (h : Inv s) : Inv (debateExpiry s t) := by
  unfold debateExpiry
  cases hg : JsMap.get s.activeDebates t.debateId with
  | none => exact h
  | some debate =>
    simp only
    split_ifs with h1
    · have hparts := (h.timer t ht).2 debate hg
      have hne := (h.timer t ht).1
      refine ⟨?_, h.chal, ?_, ?_, ?_⟩
      · exact JsMap.nodup_keys_set _ _ _ h.nodup
      · intro t2 ht2
        refine ⟨(h.timer t2 ht2).1, ?_⟩
        intro d hd
        by_cases hid : t2.debateId = t.debateId
        · rw [hid, JsMap.get_set_self] at hd
          simp only [Option.some.injEq] at hd
          subst hd
          exact (h.timer t2 ht2).2 debate (hid ▸ hg)
        · rw [JsMap.get_set_of_ne _ _ hid] at hd
          exact (h.timer t2 ht2).2 d hd
      · intro id d hd
        by_cases hid : id = t.debateId
        · exact ⟨t, ht, hid.symm⟩
        · rw [JsMap.get_set_of_ne _ _ hid] at hd
          exact h.deb id d hd
      · intro u
        have hc := h.count u
        rw [activeDebateCount_eq] at hc ⊢
        have hs := JsMap.count_set_of_get_some (fun debate : Debate =>
          decide (u ∈ debate.participants) && decide (debate.status = DebateStatus.active))
          s.activeDebates t.debateId { debate with status := DebateStatus.expired } debate
          h.nodup hg
        simp only [userOf_updateUser, Option.some.injEq]
        generalize JsMap.count _ (JsMap.set s.activeDebates t.debateId _) = n at hs ⊢
        generalize JsMap.count _ s.activeDebates = n0 at hs hc
        simp only [h1, hparts, decide_True, Bool.and_true, List.mem_cons, List.mem_singleton,
          List.not_mem_nil, or_false, Bool.and_false, decide_eq_true_eq] at hs
        by_cases hu1 : u = t.opponent
        · have hu2 : u ≠ t.challenger := fun e => hne (e.symm.trans hu1)
          simp [hu1, hu2, Ne.symm hne] at hc hs ⊢
          omega
        · by_cases hu2 : u = t.challenger
          · simp [hu1, hu2, hne] at hc hs ⊢
            omega
          · simp [hu1, hu2] at hc hs ⊢
            omega
    · exact h



theorem get_getUser (m : JsMap UserKey UserProfile) (k k' : UserKey) :
    JsMap.get (getUser m k) k' = if k' = k then some (userOf m k) else JsMap.get m k' := by
  unfold getUser userOf JsMap.has
  cases h : JsMap.get m k with
  | some p =>
    by_cases hk : k' = k
    · subst hk; simp [h]
    · simp [hk]
  | none =>
    by_cases hk : k' = k
    · subst hk
      simp [JsMap.get_set_self]
    · simp [JsMap.get_set_of_ne m newUser hk, hk]

theorem handleEndDebate_success (s : State) (debateId : DebateId) (userId winner : UserId)
    (debate : Debate) (l : UserKey)
    (hg : JsMap.get s.activeDebates debateId = some debate)
    (hs : debate.status = DebateStatus.active)
    (hu : userId ∈ debate.participants) (hw : winner ∈ debate.participants)
    (hl : debate.participants.find? (fun id => decide (id ≠ winner)) = l) :
    handleEndDebate s debateId userId winner =
      ({ s with
          userData := JsMap.set (JsMap.set (getUser (getUser s.userData (some winner)) l)
            (some winner)
            (winProfile (userOf s.userData (some winner))
              (calculateRepChange (userOf s.userData (some winner)).reputation
                (userOf s.userData l).reputation)))
            l
            (lossProfile (userOf s.userData l)
              (calculateRepChange (userOf s.userData (some winner)).reputation
                (userOf s.userData l).reputation)),
          activeDebates := JsMap.delete s.activeDebates debateId },
        Reply.debateConcluded
          (calculateRepChange (userOf s.userData (some winner)).reputation
            (userOf s.userData l).reputation)
          ((userOf s.userData (some winner)).reputation +
            calculateRepChange (userOf s.userData (some winner)).reputation
              (userOf s.userData l).reputation)
          (max 100 ((userOf s.userData l).reputation -
            calculateRepChange (userOf s.userData (some winner)).reputation
              (userOf s.userData l).reputation))) := by
  unfold handleEndDebate
  simp only [hg, hs, hu, hw, hl, ne_eq, not_true_eq_false, if_false, userOf_getUser,
    JsMap.delete_set_self, winProfile, lossProfile]

theorem find_other (c o winner : UserId) (hne : c ≠ o) (hw : winner ∈ [c, o]) :
    ([c, o].find? (fun id => decide (id ≠ winner)) = some (if winner = c then o else c)) ∧
    (if winner = c then o else c) ≠ winner ∧ (if winner = c then o else c) ∈ [c, o] := by
  simp only [List.mem_cons, List.mem_singleton, List.not_mem_nil, or_false] at hw
  rcases hw with hw | hw
  · subst hw
    simp [List.find?, Ne.symm hne]
  · subst hw
    simp [List.find?, hne, Ne.symm hne]



theorem inv_handleEndDebate (s : State) (debateId : DebateId) (userId winner : UserId)
    (h : Inv s) : Inv (handleEndDebate s debateId userId winner).1 := by
  cases hg : JsMap.get s.activeDebates debateId with
  | none => simpa [handleEndDebate, hg] using h
  | some debate =>
    by_cases hs : debate.status = DebateStatus.active
    swap
    · simpa [handleEndDebate, hg, hs] using h
    by_cases hu : userId ∈ debate.participants
    swap
    · simpa [handleEndDebate, hg, hs, hu] using h
    by_cases hw : winner ∈ debate.participants
    swap
    · simpa [handleEndDebate, hg, hs, hu, hw] using h
    obtain ⟨t, ht, hid⟩ := h.deb debateId debate hg
    have hparts := (h.timer t ht).2 debate (hid ▸ hg)
    have hne := (h.timer t ht).1
    rw [hparts] at hw
    obtain ⟨hfind, hlw, hlmem⟩ := find_other t.challenger t.opponent winner hne hw
    rw [← hparts] at hfind hw
    rw [handleEndDebate_success s debateId userId winner debate _ hg hs hu hw hfind]
    generalize (if winner = t.challenger then t.opponent else t.challenger) = l at hlw hlmem
    refine ⟨JsMap.nodup_keys_delete _ _ h.nodup, h.chal, ?_, ?_, ?_⟩
    · intro t2 ht2
      refine ⟨(h.timer t2 ht2).1, ?_⟩
      intro d hd
      by_cases hid2 : t2.debateId = debateId
      · rw [hid2, JsMap.get_delete_self] at hd
        cases hd
      · rw [JsMap.get_delete_of_ne _ hid2] at hd
        exact (h.timer t2 ht2).2 d hd
    · intro id d hd
      by_cases hid2 : id = debateId
      · rw [hid2, JsMap.get_delete_self] at hd
        cases hd
      · rw [JsMap.get_delete_of_ne _ hid2] at hd
        exact h.deb id d hd
    · intro u
      have hc := h.count u
      rw [activeDebateCount_eq] at hc ⊢
      have hd := JsMap.count_delete_of_get_some (fun debate : Debate =>
          decide (u ∈ debate.participants) && decide (debate.status = DebateStatus.active))
          s.activeDebates debateId debate h.nodup hg
      simp only [userOf_set, userOf_getUser, Option.some.injEq]
      generalize JsMap.count _ (JsMap.delete s.activeDebates debateId) = n at hd ⊢
      generalize JsMap.count _ s.activeDebates = n0 at hd hc
      simp only [hs, decide_True, Bool.and_true, decide_eq_true_eq] at hd
      rw [hparts] at hd hw
      simp only [List.mem_cons, List.mem_singleton, List.not_mem_nil, or_false] at hd hw hlmem
      by_cases hu1 : u = l
      · subst hu1
        simp only [if_true, lossProfile]
        rw [if_pos hlmem] at hd
        omega
      · by_cases hu2 : u = winner
        · subst hu2
          simp only [hu1, if_false, if_true, winProfile]
          rw [if_pos hw] at hd
          omega
        · have : ¬ (u = t.challenger ∨ u = t.opponent) := by
            rintro (e | e)
            · rcases hw with hw | hw
              · exact hu2 (e.trans hw.symm)
              · rcases hlmem with hl | hl
                · exact hu1 (e.trans hl.symm)
                · exact hlw (hl.trans hw.symm)
            · rcases hw with hw | hw
              · rcases hlmem with hl | hl
                · exact hlw (hl.trans hw.symm)
                · exact hu1 (e.trans hl.symm)
              · exact hu2 (e.trans hw.symm)
          simp only [hu1, hu2, if_false]
          rw [if_neg this] at hd
          omega

theorem inv_step {s s2 : State} (st : Step s s2) (h : Inv s) : Inv s2 := by
  cases st with
  | issue r challengeId => exact inv_handleChallenge s r challengeId h
  | respond action challengeId userId debateId now fresh =>
    exact inv_handleButtonInteraction s action challengeId userId debateId now fresh h
  | resolve debateId userId winner => exact inv_handleEndDebate s debateId userId winner h
  | challengeTimeout challengeId => exact inv_challengeExpiry s challengeId h
  | debateTimeout t scheduled => exact inv_debateExpiry s t scheduled h

theorem inv_reachable {s : State} (r : Reachable s) : Inv s := by
  induction r with
  | init => exact inv_empty
  | step _ st ih => exact inv_step st ih


theorem demoIssued_reachable : Reachable demoIssued :=
  Reachable.step Reachable.init (Step.issue State.empty (demoRequest 1 2) 10)

theorem demoAccepted_reachable : Reachable demoAccepted :=
  Reachable.step demoIssued_reachable
    (Step.respond demoIssued ButtonAction.accept 10 2 20 0 (by decide))

theorem fourChallenges_reachable : Reachable fourChallenges :=
  Reachable.step (Reachable.step (Reachable.step demoIssued_reachable
    (Step.issue _ (demoRequest 1 2) 11)) (Step.issue _ (demoRequest 1 2) 12))
    (Step.issue _ (demoRequest 1 2) 13)

theorem threeAccepted_reachable : Reachable threeAccepted :=
  Reachable.step (Reachable.step (Reachable.step fourChallenges_reachable
    (Step.respond _ ButtonAction.accept 10 2 20 0 (by decide)))
    (Step.respond _ ButtonAction.accept 11 2 21 0 (by decide)))
    (Step.respond _ ButtonAction.accept 12 2 22 0 (by decide))

/-- C1: in every state reachable from the empty state by issue, accept, decline, resolve,
challenge-expiry and debate-expiry steps, the `activeDebates` counter of every user profile
equals the number of debates in the store with status active whose participants include that
user; a user without a profile takes part in no active debate. -/
theorem activeDebates_counter_eq_active_count (s : State) (h : Reachable s) (u : UserId) :
    (∀ p, JsMap.get s.userData (some u) = some p →
      p.activeDebates = (activeDebateCount s u : Int)) ∧
    (JsMap.get s.userData (some u) = none → activeDebateCount s u = 0) := by
  have hc := (inv_reachable h).count u
  unfold userOf at hc
  constructor
  · intro p hp
    simpa [hp] using hc
  · intro hn
    simpa [hn, newUser] using hc.symm

theorem activeDebates_counter_eq_active_count_witness :
    Reachable demoAccepted ∧
    ((∀ p, JsMap.get demoAccepted.userData (some 2) = some p →
      p.activeDebates = (activeDebateCount demoAccepted 2 : Int)) ∧
    (JsMap.get demoAccepted.userData (some 2) = none → activeDebateCount demoAccepted 2 = 0)) :=
  ⟨demoAccepted_reachable,
    activeDebates_counter_eq_active_count demoAccepted demoAccepted_reachable 2⟩

/-- C2 (the code at the failing input): user 2 has three active debates and a counter of 3 in
the reachable state `threeAccepted`; issuing a challenge is rejected for user 2, but accepting
the pending challenge 13 is not: the accept succeeds, a fourth active debate is created and the
counter of user 2 (and of user 1) becomes 4. -/
theorem accept_exceeds_limit :
    Reachable threeAccepted ∧
    (userOf threeAccepted.userData (some 2)).activeDebates = 3 ∧
    activeDebateCount threeAccepted 2 = 3 ∧
    (handleChallenge threeAccepted (demoRequest 2 3) 14).2 = Reply.challengerLimit ∧
    (handleButtonInteraction threeAccepted ButtonAction.accept 13 2 23 0).2
      = Reply.challengeAccepted ∧
    (userOf (handleButtonInteraction threeAccepted ButtonAction.accept 13 2 23 0).1.userData
      (some 2)).activeDebates = 4 ∧
    activeDebateCount (handleButtonInteraction threeAccepted ButtonAction.accept 13 2 23 0).1 2
      = 4 ∧
    Reachable (handleButtonInteraction threeAccepted ButtonAction.accept 13 2 23 0).1 :=
  ⟨threeAccepted_reachable, by decide, by decide, by decide, by decide, by decide, by decide,
    Reachable.step threeAccepted_reachable
      (Step.respond _ ButtonAction.accept 13 2 23 0 (by decide))⟩

theorem get_resolved_users (m : JsMap UserKey UserProfile) (w l k : UserKey) (hwl : l ≠ w)
    (W L : UserProfile) :
    JsMap.get (JsMap.set (JsMap.set (getUser (getUser m w) l) w W) l L) k =
      if k = l then some L else if k = w then some W else JsMap.get m k := by
  by_cases hk1 : k = l
  · subst hk1
    simp [JsMap.get_set_self]
  · rw [JsMap.get_set_of_ne _ _ hk1]
    by_cases hk2 : k = w
    · subst hk2
      simp [JsMap.get_set_self, hk1]
    · rw [JsMap.get_set_of_ne _ _ hk2]
      simp [get_getUser, hk1, hk2]

/-- C3: a successful resolve of an active debate between `w` and `l` with winner `w` uses
`delta = calculateRepChange (rating w) (rating l)` on the ratings before the call; afterwards
the profile of `w` has rating + delta, wins + 1, totalDebates + 1, activeDebates - 1, the
profile of `l` has rating `max 100 (rating - delta)`, losses + 1, totalDebates + 1,
activeDebates - 1, the debate is gone from the store, and every other profile, every other
debate and every pending challenge is unchanged. With both ratings 1000 the delta is 16 and
the new ratings are 1016 and 984. -/
theorem handleEndDebate_effect (s : State) (debateId : DebateId) (userId w l : UserId)
    (debate : Debate)
    (hg : JsMap.get s.activeDebates debateId = some debate)
    (hs : debate.status = DebateStatus.active)
    (hu : userId ∈ debate.participants)
    (hp : debate.participants = [w, l] ∨ debate.participants = [l, w])
    (hne : w ≠ l) :
    (handleEndDebate s debateId userId w).2 =
      Reply.debateConcluded
        (calculateRepChange (userOf s.userData (some w)).reputation
          (userOf s.userData (some l)).reputation)
        ((userOf s.userData (some w)).reputation +
          calculateRepChange (userOf s.userData (some w)).reputation
            (userOf s.userData (some l)).reputation)
        (max 100 ((userOf s.userData (some l)).reputation -
          calculateRepChange (userOf s.userData (some w)).reputation
            (userOf s.userData (some l)).reputation)) ∧
    JsMap.get (handleEndDebate s debateId userId w).1.userData (some w) = some
      { reputation := (userOf s.userData (some w)).reputation +
          calculateRepChange (userOf s.userData (some w)).reputation
            (userOf s.userData (some l)).reputation,
        wins := (userOf s.userData (some w)).wins + 1,
        losses := (userOf s.userData (some w)).losses,
        activeDebates := (userOf s.userData (some w)).activeDebates - 1,
        totalDebates := (userOf s.userData (some w)).totalDebates + 1 } ∧
    JsMap.get (handleEndDebate s debateId userId w).1.userData (some l) = some
      { reputation := max 100 ((userOf s.userData (some l)).reputation -
          calculateRepChange (userOf s.userData (some w)).reputation
            (userOf s.userData (some l)).reputation),
        wins := (userOf s.userData (some l)).wins,
        losses := (userOf s.userData (some l)).losses + 1,
        activeDebates := (userOf s.userData (some l)).activeDebates - 1,
        totalDebates := (userOf s.userData (some l)).totalDebates + 1 } ∧
    (∀ k : UserKey, k ≠ some w → k ≠ some l →
      JsMap.get (handleEndDebate s debateId userId w).1.userData k = JsMap.get s.userData k) ∧
    JsMap.get (handleEndDebate s debateId userId w).1.activeDebates debateId = none ∧
    (∀ id, id ≠ debateId →
      JsMap.get (handleEndDebate s debateId userId w).1.activeDebates id
        = JsMap.get s.activeDebates id) ∧
    (handleEndDebate s debateId userId w).1.pendingChallenges = s.pendingChallenges ∧
    (calculateRepChange 1000 1000 = 16 ∧ (1000 : Int) + 16 = 1016 ∧
      max (100 : Int) (1000 - 16) = 984) := by
  have hw : w ∈ debate.participants := by rcases hp with hp | hp <;> simp [hp]
  have hfind : debate.participants.find? (fun id => decide (id ≠ w)) = some l := by
    rcases hp with hp | hp
    · simp [hp, List.find?, Ne.symm hne]
    · simp [hp, List.find?, Ne.symm hne]
  have hlw : (some l : UserKey) ≠ some w := by
    simpa using Ne.symm hne
  rw [handleEndDebate_success s debateId userId w debate _ hg hs hu hw hfind]
  refine ⟨rfl, ?_, ?_, ?_, ?_, ?_, rfl, by decide, by decide, by decide⟩
  · simp only [get_resolved_users _ _ _ _ hlw]
    simp [hne, winProfile]
  · simp only [get_resolved_users _ _ _ _ hlw]
    simp [lossProfile]
  · intro k hk1 hk2
    simp only [get_resolved_users _ _ _ _ hlw]
    simp [hk1, hk2]
  · exact JsMap.get_delete_self _ _
  · intro id hid
    exact JsMap.get_delete_of_ne _ hid

theorem handleEndDebate_effect_witness :
    JsMap.get (handleEndDebate demoAccepted 20 1 2).1.userData (some 2) = some
      { reputation := 1016, wins := 1, losses := 0, activeDebates := 0, totalDebates := 1 } ∧
    JsMap.get (handleEndDebate demoAccepted 20 1 2).1.userData (some 1) = some
      { reputation := 984, wins := 0, losses := 1, activeDebates := 0, totalDebates := 1 } := by
  have h := handleEndDebate_effect demoAccepted 20 1 2 1 demoDebate
    (by decide) rfl (by decide) (Or.inr rfl) (by decide)
  exact ⟨h.2.1.trans (by decide), h.2.2.1.trans (by decide)⟩

theorem handleEndDebate_cases (s : State) (debateId : DebateId) (userId winner : UserId) :
    (JsMap.get s.activeDebates debateId = none →
      handleEndDebate s debateId userId winner = (s, Reply.debateNotFound)) ∧
    (∀ debate, JsMap.get s.activeDebates debateId = some debate →
      debate.status ≠ DebateStatus.active →
      handleEndDebate s debateId userId winner = (s, Reply.debateNotActive)) ∧
    (∀ debate, JsMap.get s.activeDebates debateId = some debate →
      debate.status = DebateStatus.active → userId ∉ debate.participants →
      handleEndDebate s debateId userId winner = (s, Reply.notParticipant)) ∧
    (∀ debate, JsMap.get s.activeDebates debateId = some debate →
      debate.status = DebateStatus.active → userId ∈ debate.participants →
      winner ∉ debate.participants →
      handleEndDebate s debateId userId winner = (s, Reply.winnerNotParticipant)) ∧
    ((∃ d a b, (handleEndDebate s debateId userId winner).2 = Reply.debateConcluded d a b) ↔
      ∃ debate, JsMap.get s.activeDebates debateId = some debate ∧
        debate.status = DebateStatus.active ∧ userId ∈ debate.participants ∧
        winner ∈ debate.participants) ∧
    ((¬ ∃ d a b, (handleEndDebate s debateId userId winner).2 = Reply.debateConcluded d a b) →
      (handleEndDebate s debateId userId winner).1 = s) := by
  cases hg : JsMap.get s.activeDebates debateId with
  | none => simp [handleEndDebate, hg]
  | some debate =>
    by_cases hs : debate.status = DebateStatus.active
    swap
    · simp [handleEndDebate, hg, hs]
    by_cases hu : userId ∈ debate.participants
    swap
    · simp [handleEndDebate, hg, hs, hu]
    by_cases hw : winner ∈ debate.participants
    swap
    · simp [handleEndDebate, hg, hs, hu, hw]
    have hsucc := handleEndDebate_success s debateId userId winner debate _ hg hs hu hw rfl
    refine ⟨by simp, by simp [hs], by simp [hu], by simp [hw], ?_, ?_⟩
    · rw [hsucc]
      simp [hs, hu, hw]
    · intro hno
      exact absurd ⟨_, _, _, congrArg Prod.snd hsucc⟩ hno

/-- C4: `handleEndDebate` gives exactly one outcome, decided in this order: debate not found
when no debate is stored under the id; else debate not active; else requester not a
participant; else winner not a participant; else success. It succeeds exactly when none of
the four conditions holds, and every failure returns the state (user registry, debate store,
challenge store) unchanged. -/
theorem handleEndDebate_outcome (s : State) (debateId : DebateId) (userId winner : UserId) :
    (JsMap.get s.activeDebates debateId = none →
      handleEndDebate s debateId userId winner = (s, Reply.debateNotFound)) ∧
    (∀ debate, JsMap.get s.activeDebates debateId = some debate →
      debate.status ≠ DebateStatus.active →
      handleEndDebate s debateId userId winner = (s, Reply.debateNotActive)) ∧
    (∀ debate, JsMap.get s.activeDebates debateId = some debate →
      debate.status = DebateStatus.active → userId ∉ debate.participants →
      handleEndDebate s debateId userId winner = (s, Reply.notParticipant)) ∧
    (∀ debate, JsMap.get s.activeDebates debateId = some debate →
      debate.status = DebateStatus.active → userId ∈ debate.participants →
      winner ∉ debate.participants →
      handleEndDebate s debateId userId winner = (s, Reply.winnerNotParticipant)) ∧
    ((∃ d a b, (handleEndDebate s debateId userId winner).2 = Reply.debateConcluded d a b) ↔
      ∃ debate, JsMap.get s.activeDebates debateId = some debate ∧
        debate.status = DebateStatus.active ∧ userId ∈ debate.participants ∧
        winner ∈ debate.participants) ∧
    ((¬ ∃ d a b, (handleEndDebate s debateId userId winner).2 = Reply.debateConcluded d a b) →
      (handleEndDebate s debateId userId winner).1 = s) :=
  handleEndDebate_cases s debateId userId winner

theorem handleEndDebate_outcome_witness :
    handleEndDebate demoAccepted 21 1 2 = (demoAccepted, Reply.debateNotFound) ∧
    handleEndDebate demoAccepted 20 3 2 = (demoAccepted, Reply.notParticipant) ∧
    handleEndDebate demoAccepted 20 1 3 = (demoAccepted, Reply.winnerNotParticipant) :=
  ⟨(handleEndDebate_outcome demoAccepted 21 1 2).1 (by decide),
   (handleEndDebate_outcome demoAccepted 20 3 2).2.2.1 demoDebate
     (by decide) (by decide) (by decide),
   (handleEndDebate_outcome demoAccepted 20 1 3).2.2.2.1 demoDebate
     (by decide) (by decide) (by decide) (by decide)⟩

theorem handleChallenge_debates (s : State) (r : ChallengeRequest) (challengeId : ChallengeId) :
    (handleChallenge s r challengeId).1.activeDebates = s.activeDebates ∧
    (handleChallenge s r challengeId).1.debateTimers = s.debateTimers := by
  unfold handleChallenge
  simp only
  split_ifs
  all_goals first
    | exact ⟨rfl, rfl⟩
    | (split <;> exact ⟨rfl, rfl⟩)

theorem challengeExpiry_debates (s : State) (challengeId : ChallengeId) :
    (challengeExpiry s challengeId).activeDebates = s.activeDebates ∧
    (challengeExpiry s challengeId).debateTimers = s.debateTimers := by
  unfold challengeExpiry
  split_ifs <;> exact ⟨rfl, rfl⟩

theorem handleButtonInteraction_debates (s : State) (action : ButtonAction)
    (challengeId : ChallengeId) (userId : UserId) (debateId : DebateId) (now : Nat) :
    ((handleButtonInteraction s action challengeId userId debateId now).1.activeDebates
        = s.activeDebates ∧
      (handleButtonInteraction s action challengeId userId debateId now).1.debateTimers
        = s.debateTimers) ∨
    (action = ButtonAction.accept ∧ ∃ debate t,
      (handleButtonInteraction s action challengeId userId debateId now).1.activeDebates
        = JsMap.set s.activeDebates debateId debate ∧
      (handleButtonInteraction s action challengeId userId debateId now).1.debateTimers
        = s.debateTimers ++ [t]) := by
  unfold handleButtonInteraction
  cases JsMap.get s.pendingChallenges challengeId with
  | none => exact Or.inl ⟨rfl, rfl⟩
  | some challenge =>
    simp only
    split_ifs
    · exact Or.inl ⟨rfl, rfl⟩
    · cases action with
      | accept => exact Or.inr ⟨rfl, _, _, rfl, rfl⟩
      | decline => exact Or.inl ⟨rfl, rfl⟩
      | other => exact Or.inl ⟨rfl, rfl⟩

theorem handleEndDebate_debates (s : State) (debateId : DebateId) (userId winner : UserId) :
    (handleEndDebate s debateId userId winner).1.debateTimers = s.debateTimers ∧
    ((handleEndDebate s debateId userId winner).1.activeDebates = s.activeDebates ∨
      ∃ debate, JsMap.get s.activeDebates debateId = some debate ∧
        debate.status = DebateStatus.active ∧
        (handleEndDebate s debateId userId winner).1.activeDebates
          = JsMap.delete s.activeDebates debateId) := by
  cases hg : JsMap.get s.activeDebates debateId with
  | none => simp [handleEndDebate, hg]
  | some debate =>
    by_cases hs : debate.status = DebateStatus.active
    swap
    · simp [handleEndDebate, hg, hs]
    by_cases hu : userId ∈ debate.participants
    swap
    · simp [handleEndDebate, hg, hs, hu]
    by_cases hw : winner ∈ debate.participants
    swap
    · simp [handleEndDebate, hg, hs, hu, hw]
    rw [handleEndDebate_success s debateId userId winner debate _ hg hs hu hw rfl]
    exact ⟨rfl, Or.inr ⟨debate, rfl, hs, rfl⟩⟩

theorem debateExpiry_debates (s : State) (t : DebateTimer) :
    (debateExpiry s t).debateTimers = s.debateTimers ∧
    ((debateExpiry s t).activeDebates = s.activeDebates ∨
      ∃ debate, JsMap.get s.activeDebates t.debateId = some debate ∧
        debate.status = DebateStatus.active ∧
        (debateExpiry s t).activeDebates = JsMap.set s.activeDebates t.debateId
          { debate with status := DebateStatus.expired }) := by
  unfold debateExpiry
  cases hg : JsMap.get s.activeDebates t.debateId with
  | none => exact ⟨rfl, Or.inl rfl⟩
  | some debate =>
    simp only
    split_ifs with h1
    · exact ⟨rfl, Or.inr ⟨debate, rfl, h1, rfl⟩⟩
    · exact ⟨rfl, Or.inl rfl⟩

/-- A step never removes a scheduled debate timer. -/
theorem step_timers_mono {s s2 : State} (st : Step s s2) :
    ∀ t ∈ s.debateTimers, t ∈ s2.debateTimers := by
  intro t ht
  cases st with
  | issue r challengeId => rw [(handleChallenge_debates s r challengeId).2]; exact ht
  | challengeTimeout challengeId => rw [(challengeExpiry_debates s challengeId).2]; exact ht
  | respond action challengeId userId debateId now fresh =>
    rcases handleButtonInteraction_debates s action challengeId userId debateId now with
      h | ⟨_, _, _, _, h⟩
    · rw [h.2]; exact ht
    · rw [h]; exact List.mem_append_left _ ht
  | resolve debateId userId winner =>
    rw [(handleEndDebate_debates s debateId userId winner).1]; exact ht
  | debateTimeout t2 scheduled => rw [(debateExpiry_debates s t2).1]; exact ht

/-- A debate id that has been drawn and is no longer in the store never comes back. -/
theorem step_absent {s s2 : State} (st : Step s s2) (id : DebateId)
    (hnone : JsMap.get s.activeDebates id = none)
    (hused : ∃ t ∈ s.debateTimers, t.debateId = id) :
    JsMap.get s2.activeDebates id = none := by
  cases st with
  | issue r challengeId => rw [(handleChallenge_debates s r challengeId).1]; exact hnone
  | challengeTimeout challengeId => rw [(challengeExpiry_debates s challengeId).1]; exact hnone
  | respond action challengeId userId debateId now fresh =>
    rcases handleButtonInteraction_debates s action challengeId userId debateId now with
      h | ⟨ha, _, _, h, _⟩
    · rw [h.1]; exact hnone
    · obtain ⟨t, ht, hid⟩ := hused
      have hne : id ≠ debateId := hid ▸ fresh ha t ht
      rw [h, JsMap.get_set_of_ne _ _ hne]
      exact hnone
  | resolve debateId userId winner =>
    rcases (handleEndDebate_debates s debateId userId winner).2 with h | ⟨_, _, _, h⟩
    · rw [h]; exact hnone
    · rw [h]
      by_cases hid : id = debateId
      · rw [hid]; exact JsMap.get_delete_self _ _
      · rw [JsMap.get_delete_of_ne _ hid]; exact hnone
  | debateTimeout t2 scheduled =>
    rcases (debateExpiry_debates s t2).2 with h | ⟨debate, hg, _, h⟩
    · rw [h]; exact hnone
    · have hid : id ≠ t2.debateId := by
        intro e
        rw [e, hg] at hnone
        cases hnone
      rw [h, JsMap.get_set_of_ne _ _ hid]
      exact hnone

/-- A stored debate whose status is not active is never touched again. -/
theorem step_terminal {s s2 : State} (st : Step s s2) (h : Inv s) (id : DebateId) (d : Debate)
    (hd : JsMap.get s.activeDebates id = some d) (hs : d.status ≠ DebateStatus.active) :
    JsMap.get s2.activeDebates id = some d := by
  cases st with
  | issue r challengeId => rw [(handleChallenge_debates s r challengeId).1]; exact hd
  | challengeTimeout challengeId => rw [(challengeExpiry_debates s challengeId).1]; exact hd
  | respond action challengeId userId debateId now fresh =>
    rcases handleButtonInteraction_debates s action challengeId userId debateId now with
      h2 | ⟨ha, _, _, h2, _⟩
    · rw [h2.1]; exact hd
    · obtain ⟨t, ht, hid⟩ := h.deb id d hd
      have hne : id ≠ debateId := hid ▸ fresh ha t ht
      rw [h2, JsMap.get_set_of_ne _ _ hne]
      exact hd
  | resolve debateId userId winner =>
    rcases (handleEndDebate_debates s debateId userId winner).2 with h2 | ⟨debate, hg, ha, h2⟩
    · rw [h2]; exact hd
    · have hid : id ≠ debateId := by
        intro e
        rw [e, hg] at hd
        cases hd
        exact hs ha
      rw [h2, JsMap.get_delete_of_ne _ hid]; exact hd
  | debateTimeout t2 scheduled =>
    rcases (debateExpiry_debates s t2).2 with h2 | ⟨debate, hg, ha, h2⟩
    · rw [h2]; exact hd
    · have hid : id ≠ t2.debateId := by
        intro e
        rw [e, hg] at hd
        cases hd
        exact hs ha
      rw [h2, JsMap.get_set_of_ne _ _ hid]
      exact hd

theorem steps_absent {s s3 : State} (h : Relation.ReflTransGen Step s s3) (id : DebateId)
    (hnone : JsMap.get s.activeDebates id = none)
    (hused : ∃ t ∈ s.debateTimers, t.debateId = id) :
    JsMap.get s3.activeDebates id = none ∧ ∃ t ∈ s3.debateTimers, t.debateId = id := by
  induction h with
  | refl => exact ⟨hnone, hused⟩
  | tail _ st ih =>
    obtain ⟨t, ht, hid⟩ := ih.2
    exact ⟨step_absent st id ih.1 ih.2, t, step_timers_mono st t ht, hid⟩

theorem steps_terminal {s s3 : State} (h : Relation.ReflTransGen Step s s3) (hi : Inv s)
    (id : DebateId) (d : Debate) (hd : JsMap.get s.activeDebates id = some d)
    (hs : d.status ≠ DebateStatus.active) :
    Inv s3 ∧ JsMap.get s3.activeDebates id = some d := by
  induction h with
  | refl => exact ⟨hi, hd⟩
  | tail _ st ih => exact ⟨inv_step st ih.1, step_terminal st ih.1 id d ih.2 hs⟩

/-- C5: terminal debate states are not re-enterable (debate ids are fresh). After a
successful resolve of `debateId` in a reachable state, every resolve on the same id in every
later state replies debate-not-found; after the expiry timer of `debateId` has fired while
the debate was active, every later resolve on that id replies debate-not-active. In both
cases the later call returns the state as it was, so no rating, wins, losses, totalDebates or
activeDebates changes; hence a resolve succeeds at most once per id. -/
theorem resolve_not_reenterable (s : State) (hr : Reachable s) (debateId : DebateId) :
    (∀ userId winner,
      (∃ d a b, (handleEndDebate s debateId userId winner).2 = Reply.debateConcluded d a b) →
      ∀ s3, Relation.ReflTransGen Step (handleEndDebate s debateId userId winner).1 s3 →
        ∀ userId2 winner2,
          handleEndDebate s3 debateId userId2 winner2 = (s3, Reply.debateNotFound)) ∧
    (∀ t ∈ s.debateTimers, t.debateId = debateId →
      (∃ debate, JsMap.get s.activeDebates debateId = some debate ∧
        debate.status = DebateStatus.active) →
      ∀ s3, Relation.ReflTransGen Step (debateExpiry s t) s3 →
        ∀ userId2 winner2,
          handleEndDebate s3 debateId userId2 winner2 = (s3, Reply.debateNotActive)) := by
  have hi := inv_reachable hr
  constructor
  · intro userId winner hsucc s3 hsteps userId2 winner2
    obtain ⟨debate, hg, hs, hu, hw⟩ :=
      (handleEndDebate_cases s debateId userId winner).2.2.2.2.1.1 hsucc
    have hused := hi.deb debateId debate hg
    rw [handleEndDebate_success s debateId userId winner debate _ hg hs hu hw rfl] at hsteps
    have h3 := steps_absent hsteps debateId (JsMap.get_delete_self _ _) hused
    exact (handleEndDebate_cases s3 debateId userId2 winner2).1 h3.1
  · intro t ht hid ⟨debate, hg, hs⟩ s3 hsteps userId2 winner2
    have hi2 := inv_debateExpiry s t ht hi
    have hexp : JsMap.get (debateExpiry s t).activeDebates debateId
        = some { debate with status := DebateStatus.expired } := by
      subst hid
      unfold debateExpiry
      simp only [hg, hs, if_true]
      exact JsMap.get_set_self _ _ _
    have h3 := steps_terminal hsteps hi2 debateId _ hexp (by simp)
    exact (handleEndDebate_cases s3 debateId userId2 winner2).2.1 _ h3.2 (by simp)

theorem resolve_not_reenterable_witness :
    handleEndDebate (handleEndDebate demoAccepted 20 1 2).1 20 1 2
      = ((handleEndDebate demoAccepted 20 1 2).1, Reply.debateNotFound) ∧
    handleEndDebate (debateExpiry demoAccepted ⟨20, 1, 2⟩) 20 1 2
      = (debateExpiry demoAccepted ⟨20, 1, 2⟩, Reply.debateNotActive) :=
  ⟨(resolve_not_reenterable demoAccepted demoAccepted_reachable 20).1 1 2
      ⟨16, 1016, 984, by decide⟩ _ Relation.ReflTransGen.refl 1 2,
   (resolve_not_reenterable demoAccepted demoAccepted_reachable 20).2 ⟨20, 1, 2⟩
      (by decide) rfl ⟨demoDebate, by decide, rfl⟩ _ Relation.ReflTransGen.refl 1 2⟩

theorem calculateRepChange_nonneg (w l : Int) : 0 ≤ calculateRepChange w l :=
  Int.natCast_nonneg _

theorem repOk_userOf {m : JsMap UserKey UserProfile} (h : RepOk m) (k : UserKey) :
    100 ≤ (userOf m k).reputation := by
  unfold userOf
  cases hg : JsMap.get m k with
  | none => simp [newUser]
  | some p => exact h k p hg

theorem repOk_set {m : JsMap UserKey UserProfile} (h : RepOk m) (k : UserKey)
    (p : UserProfile) (hp : 100 ≤ p.reputation) : RepOk (JsMap.set m k p) := by
  intro k2 p2 hg
  by_cases hk : k2 = k
  · rw [hk, JsMap.get_set_self] at hg
    cases hg
    exact hp
  · rw [JsMap.get_set_of_ne _ _ hk] at hg
    exact h k2 p2 hg

theorem repOk_getUser {m : JsMap UserKey UserProfile} (h : RepOk m) (k : UserKey) :
    RepOk (getUser m k) := by
  intro k2 p2 hg
  rw [get_getUser] at hg
  split_ifs at hg
  · cases hg
    exact repOk_userOf h k
  · exact h k2 p2 hg

theorem repOk_updateUser {m : JsMap UserKey UserProfile} (h : RepOk m) (k : UserKey)
    (f : UserProfile → UserProfile) (hf : ∀ p, (f p).reputation = p.reputation) :
    RepOk (updateUser m k f) := by
  unfold updateUser
  exact repOk_set (repOk_getUser h k) k _ (by rw [hf]; exact repOk_userOf h k)

theorem repOk_step {s s2 : State} (st : Step s s2) (h : RepOk s.userData) :
    RepOk s2.userData := by
  cases st with
  | issue r challengeId =>
    unfold handleChallenge
    simp only
    split_ifs
    all_goals first
      | exact h
      | exact repOk_getUser (repOk_getUser h _) _
      | (split <;> exact repOk_getUser (repOk_getUser h _) _)
  | challengeTimeout challengeId =>
    unfold challengeExpiry
    split_ifs <;> exact h
  | respond action challengeId userId debateId now fresh =>
    unfold handleButtonInteraction
    cases JsMap.get s.pendingChallenges challengeId with
    | none => exact h
    | some challenge =>
      simp only
      split_ifs
      · exact h
      · cases action with
        | accept =>
          simp only
          apply repOk_updateUser
          · apply repOk_updateUser
            · exact h
            · intro p; rfl
          · intro p; rfl
        | decline => exact h
        | other => exact h
  | debateTimeout t scheduled =>
    unfold debateExpiry
    cases JsMap.get s.activeDebates t.debateId with
    | none => exact h
    | some debate =>
      simp only
      split_ifs
      · simp only
        apply repOk_updateUser
        · apply repOk_updateUser
          · exact h
          · intro p; rfl
        · intro p; rfl
      · exact h
  | resolve debateId userId winner =>
    cases hg : JsMap.get s.activeDebates debateId with
    | none => simpa [handleEndDebate, hg] using h
    | some debate =>
      by_cases hs : debate.status = DebateStatus.active
      swap
      · simpa [handleEndDebate, hg, hs] using h
      by_cases hu : userId ∈ debate.participants
      swap
      · simpa [handleEndDebate, hg, hs, hu] using h
      by_cases hw : winner ∈ debate.participants
      swap
      · simpa [handleEndDebate, hg, hs, hu, hw] using h
      rw [handleEndDebate_success s debateId userId winner debate _ hg hs hu hw rfl]
      refine repOk_set (repOk_set (repOk_getUser (repOk_getUser h _) _) _ _ ?_) _ _ ?_
      · have := repOk_userOf h (some winner)
        have := calculateRepChange_nonneg (userOf s.userData (some winner)).reputation
          (userOf s.userData
            (List.find? (fun id => decide (id ≠ winner)) debate.participants)).reputation
        simp only [winProfile]
        omega
      · simp only [lossProfile]
        exact le_max_left _ _

/-- C6: in every reachable state every stored profile has reputation at least 100. A profile
is created with 1000, the rating change is never negative (so a win never lowers the rating),
and a loss sets the rating to `max 100 (rating - delta)`: a loser at 105 facing a delta of 16
ends at exactly 100. -/
theorem reputation_ge_100 (s : State) (h : Reachable s) :
    (∀ k p, JsMap.get s.userData k = some p → 100 ≤ p.reputation) ∧
    newUser.reputation = 1000 ∧
    (∀ w l : Int, 0 ≤ calculateRepChange w l) ∧
    handleEndDebate lowRated 20 1 2 =
      ({ userData := [(some 1, { reputation := 100, wins := 0, losses := 10,
                                  activeDebates := 0, totalDebates := 10 }),
                      (some 2, { reputation := 121, wins := 1, losses := 9,
                                  activeDebates := 0, totalDebates := 10 })],
         activeDebates := [],
         pendingChallenges := [],
         debateTimers := [⟨20, 1, 2⟩] },
       Reply.debateConcluded 16 121 100) := by
  refine ⟨?_, rfl, calculateRepChange_nonneg, by decide⟩
  induction h with
  | init => intro k p hg; simp [State.empty, JsMap.get] at hg
  | step _ st ih => exact repOk_step st ih

theorem reputation_ge_100_witness :
    Reachable (handleEndDebate demoAccepted 20 1 2).1 ∧
    (∀ k p, JsMap.get (handleEndDebate demoAccepted 20 1 2).1.userData k = some p →
      100 ≤ p.reputation) :=
  ⟨Reachable.step demoAccepted_reachable (Step.resolve demoAccepted 20 1 2),
   (reputation_ge_100 _ (Reachable.step demoAccepted_reachable
      (Step.resolve demoAccepted 20 1 2))).1⟩

theorem get_getUser_of_some (m : JsMap UserKey UserProfile) (k k2 : UserKey) (p : UserProfile)
    (hg : JsMap.get m k = some p) : JsMap.get (getUser m k2) k = some p := by
  rw [get_getUser]
  split_ifs with e
  · subst e
    simp [userOf, hg]
  · exact hg

/-- C10: `handleButtonInteraction` replies challenge-gone exactly when no challenge is pending
under the id, and otherwise replies not-the-challenged-user exactly when the responder is not
the opponent of the challenge; both failures return the state unchanged (the challenge stays
pending). A decline by the opponent removes exactly that challenge and leaves every profile
and every debate unchanged. After an accept, a decline or the expiry of the challenge no
challenge is pending under the id, so a later response replies challenge-gone. -/
theorem handleButtonInteraction_outcome (s : State) (action : ButtonAction)
    (challengeId : ChallengeId) (userId : UserId) (debateId : DebateId) (now : Nat) :
    ((handleButtonInteraction s action challengeId userId debateId now).2 = Reply.challengeGone
      ↔ JsMap.get s.pendingChallenges challengeId = none) ∧
    (∀ c, JsMap.get s.pendingChallenges challengeId = some c →
      ((handleButtonInteraction s action challengeId userId debateId now).2
        = Reply.notChallenged ↔ userId ≠ c.opponent)) ∧
    ((handleButtonInteraction s action challengeId userId debateId now).2 = Reply.challengeGone ∨
      (handleButtonInteraction s action challengeId userId debateId now).2 = Reply.notChallenged
      → (handleButtonInteraction s action challengeId userId debateId now).1 = s) ∧
    (∀ c, JsMap.get s.pendingChallenges challengeId = some c → userId = c.opponent →
      action = ButtonAction.decline →
      handleButtonInteraction s action challengeId userId debateId now =
        ({ s with pendingChallenges := JsMap.delete s.pendingChallenges challengeId },
          Reply.challengeDeclined) ∧
      JsMap.get (JsMap.delete s.pendingChallenges challengeId) challengeId = none ∧
      ∀ id, id ≠ challengeId →
        JsMap.get (JsMap.delete s.pendingChallenges challengeId) id
          = JsMap.get s.pendingChallenges id) ∧
    (∀ c, JsMap.get s.pendingChallenges challengeId = some c → userId = c.opponent →
      action ≠ ButtonAction.other →
      ∀ action2 userId2 debateId2 now2,
        (handleButtonInteraction
          (handleButtonInteraction s action challengeId userId debateId now).1
          action2 challengeId userId2 debateId2 now2).2 = Reply.challengeGone) ∧
    (∀ action2 userId2 debateId2 now2,
      (handleButtonInteraction (challengeExpiry s challengeId)
        action2 challengeId userId2 debateId2 now2).2 = Reply.challengeGone) := by
  have gone : ∀ (s2 : State) action2 userId2 debateId2 now2,
      JsMap.get s2.pendingChallenges challengeId = none →
      (handleButtonInteraction s2 action2 challengeId userId2 debateId2 now2).2
        = Reply.challengeGone := by
    intro s2 action2 userId2 debateId2 now2 hn
    simp [handleButtonInteraction, hn]
  have hexp : ∀ action2 userId2 debateId2 now2,
      (handleButtonInteraction (challengeExpiry s challengeId)
        action2 challengeId userId2 debateId2 now2).2 = Reply.challengeGone := by
    intro action2 userId2 debateId2 now2
    apply gone
    unfold challengeExpiry JsMap.has
    cases hg : JsMap.get s.pendingChallenges challengeId with
    | none => simpa using hg
    | some c => simpa using JsMap.get_delete_self _ _
  cases hg : JsMap.get s.pendingChallenges challengeId with
  | none => simpa [handleButtonInteraction, hg] using hexp
  | some c =>
    by_cases hu : userId = c.opponent
    swap
    · simpa [handleButtonInteraction, hg, hu] using hexp
    cases action with
    | other => simpa [handleButtonInteraction, hg, hu] using hexp
    | decline =>
      have hres : handleButtonInteraction s ButtonAction.decline challengeId userId debateId now
          = ({ s with pendingChallenges := JsMap.delete s.pendingChallenges challengeId },
              Reply.challengeDeclined) := by
        simp [handleButtonInteraction, hg, hu]
      rw [hres]
      refine ⟨by simp, by simp [hu], by simp, ?_, ?_, hexp⟩
      · intro c2 _ _ _
        exact ⟨rfl, JsMap.get_delete_self _ _, fun id hid => JsMap.get_delete_of_ne _ hid⟩
      · intro c2 _ _ _ action2 userId2 debateId2 now2
        exact gone _ _ _ _ _ (JsMap.get_delete_self _ _)
    | accept =>
      have hres : (handleButtonInteraction s ButtonAction.accept challengeId userId debateId
          now).2 = Reply.challengeAccepted ∧
          (handleButtonInteraction s ButtonAction.accept challengeId userId debateId
          now).1.pendingChallenges = JsMap.delete s.pendingChallenges challengeId := by
        simp [handleButtonInteraction, hg, hu]
      refine ⟨by simp [hres.1], ?_, by simp [hres.1], by simp, ?_, hexp⟩
      · intro c2 hc2
        cases hc2
        rw [hres.1]
        simp [hu]
      intro c2 _ _ _ action2 userId2 debateId2 now2
      apply gone
      rw [hres.2]
      exact JsMap.get_delete_self _ _

theorem handleButtonInteraction_outcome_witness :
    (handleButtonInteraction demoIssued ButtonAction.accept 11 2 20 0).2
      = Reply.challengeGone ∧
    (handleButtonInteraction demoIssued ButtonAction.accept 10 1 20 0).2
      = Reply.notChallenged ∧
    handleButtonInteraction demoIssued ButtonAction.decline 10 2 20 0 =
      ({ demoIssued with pendingChallenges := [] }, Reply.challengeDeclined) :=
  ⟨(handleButtonInteraction_outcome demoIssued ButtonAction.accept 11 2 20 0).1.2 (by decide),
   ((handleButtonInteraction_outcome demoIssued ButtonAction.accept 10 1 20 0).2.1
      ⟨10, 1, 2, "tabs", 10, 0, 7, 8⟩ (by decide)).2 (by decide),
   ((handleButtonInteraction_outcome demoIssued ButtonAction.decline 10 2 20 0).2.2.2.1
      ⟨10, 1, 2, "tabs", 10, 0, 7, 8⟩ (by decide) (by decide) rfl).1⟩

/-- The 400th power of `10 ^ (d / 400)` is `10 ^ d`. -/
theorem rpow_div_400_pow (d : Int) :
    ((10 : ℝ) ^ ((d : ℝ) / 400)) ^ 400 = (10 : ℝ) ^ d := by
  rw [← Real.rpow_natCast, ← Real.rpow_mul (by norm_num : (0 : ℝ) ≤ 10)]
  have : (d : ℝ) / 400 * ((400 : ℕ) : ℝ) = (d : ℝ) := by push_cast; ring
  rw [this, Real.rpow_intCast]

theorem zpow_ten_split (d : Int) :
    (10 : ℝ) ^ d * (10 : ℝ) ^ (-d).toNat = (10 : ℝ) ^ d.toNat := by
  have h10 : (10 : ℝ) ≠ 0 := by norm_num
  rw [← zpow_natCast (10 : ℝ) (-d).toNat, ← zpow_natCast (10 : ℝ) d.toNat,
    ← zpow_add₀ h10]
  congr 1
  have := Int.toNat_sub_toNat_neg d
  omega

/-- The integer comparison of `repThreshold` decides `a ≤ b * 10 ^ (d / 400)`. -/
theorem threshold_real (a b : Nat) (d : Int) :
    (a : ℝ) ≤ (b : ℝ) * (10 : ℝ) ^ ((d : ℝ) / 400) ↔
      a ^ 400 * 10 ^ (-d).toNat ≤ b ^ 400 * 10 ^ d.toNat := by
  have ht : 0 < (10 : ℝ) ^ ((d : ℝ) / 400) := Real.rpow_pos_of_pos (by norm_num) _
  have hp : (0 : ℝ) < (10 : ℝ) ^ (-d).toNat := by positivity
  rw [← pow_le_pow_iff_left₀ (Nat.cast_nonneg a) (by positivity) (by norm_num : 400 ≠ 0),
    mul_pow, rpow_div_400_pow, ← mul_le_mul_right hp, mul_assoc, zpow_ten_split]
  exact_mod_cast Iff.rfl

theorem round_ge_iff (k : Nat) (hk1 : 1 ≤ k) (hk2 : k ≤ 32) (w l : Int) :
    (k : ℝ) ≤ (32 : ℝ) * (1 - expectedWin w l) + 1 / 2 ↔ repThreshold k (l - w) = true := by
  unfold repThreshold expectedWin
  rw [decide_eq_true_iff, ← threshold_real]
  have ht : 0 < (10 : ℝ) ^ (((l - w : Int) : ℝ) / 400) := Real.rpow_pos_of_pos (by norm_num) _
  generalize (10 : ℝ) ^ (((l - w : Int) : ℝ) / 400) = t at ht
  have h1 : ((2 * k - 1 : Nat) : ℝ) = 2 * (k : ℝ) - 1 := by
    rw [Nat.cast_sub (by omega)]; push_cast; ring
  have h2 : ((65 - 2 * k : Nat) : ℝ) = 65 - 2 * (k : ℝ) := by
    rw [Nat.cast_sub (by omega)]; push_cast; ring
  rw [h1, h2]
  have hpos : 0 < 1 + t := by linarith
  have e : (32 : ℝ) * (1 - 1 / (1 + t)) + 1 / 2 = (32 * t) / (1 + t) + 1 / 2 := by
    field_simp
  rw [e, ← sub_le_iff_le_add, le_div_iff₀ hpos]
  constructor <;> intro h <;> nlinarith

theorem length_filter_lt_range (N n : Nat) (h : n ≤ N) :
    ((List.range N).filter (fun i => decide (i + 1 ≤ n))).length = n := by
  induction N with
  | zero => simp; omega
  | succ N ih =>
    rw [List.range_succ, List.filter_append, List.length_append]
    by_cases hn : n ≤ N
    · rw [ih hn]
      have : ¬ (N + 1 ≤ n) := by omega
      simp [this]
    · have hn2 : n = N + 1 := by omega
      subst hn2
      have hall : (List.range N).filter (fun i => decide (i + 1 ≤ N + 1)) = List.range N := by
        rw [List.filter_eq_self]
        intro i hi
        have := List.mem_range.1 hi
        simp; omega
      rw [hall]
      simp

/-- The executable `calculateRepChange` is the value of the source expression in exact real
arithmetic. -/
theorem calculateRepChange_eq_real (w l : Int) :
    calculateRepChange w l = calculateRepChangeReal w l := by
  have hE0 : 0 < expectedWin w l := by
    unfold expectedWin
    have := Real.rpow_pos_of_pos (by norm_num : (0 : ℝ) < 10) (((l - w : Int) : ℝ) / 400)
    positivity
  have hE1 : expectedWin w l < 1 := by
    unfold expectedWin
    have := Real.rpow_pos_of_pos (by norm_num : (0 : ℝ) < 10) (((l - w : Int) : ℝ) / 400)
    rw [div_lt_one (by linarith)]
    linarith
  set x : ℝ := (32 : ℝ) * (1 - expectedWin w l) + 1 / 2 with hx
  have hx0 : (0 : ℝ) ≤ x := by rw [hx]; nlinarith
  have hx33 : x < 33 := by rw [hx]; nlinarith
  have hf0 : 0 ≤ ⌊x⌋ := Int.floor_nonneg.2 hx0
  have hf32 : ⌊x⌋ ≤ 32 := by
    have : ⌊x⌋ < 33 := Int.floor_lt.2 (by exact_mod_cast hx33)
    omega
  obtain ⟨n, hn⟩ := Int.eq_ofNat_of_zero_le hf0
  have hn32 : n ≤ 32 := by omega
  have hfilter : (List.range 32).filter (fun i => repThreshold (i + 1) (l - w))
      = (List.range 32).filter (fun i => decide (i + 1 ≤ n)) := by
    apply List.filter_congr
    intro i hi
    have hi32 := List.mem_range.1 hi
    have h1 := round_ge_iff (i + 1) (by omega) (by omega) w l
    rw [← hx] at h1
    have h2 : ((i + 1 : Nat) : ℝ) ≤ x ↔ i + 1 ≤ n := by
      have h3 : (((i + 1 : Nat) : Int) : ℝ) ≤ x ↔ ((i + 1 : Nat) : Int) ≤ ⌊x⌋ :=
        Int.le_floor.symm
      rw [hn] at h3
      rw [Int.cast_natCast] at h3
      rw [h3]
      exact Int.ofNat_le
    by_cases hb : repThreshold (i + 1) (l - w) = true
    · rw [hb]
      exact (decide_eq_true (h2.1 (h1.2 hb))).symm
    · have hd : ¬ (i + 1 ≤ n) := fun hle => hb (h1.1 (h2.2 hle))
      rw [Bool.not_eq_true] at hb
      rw [hb]
      exact (decide_eq_false hd).symm
  unfold calculateRepChange calculateRepChangeReal
  rw [← hx, hn, hfilter, length_filter_lt_range 32 n hn32]

theorem repThreshold_mono (k : Nat) {d d2 : Int} (h : d ≤ d2)
    (ht : repThreshold k d = true) : repThreshold k d2 = true := by
  unfold repThreshold at ht ⊢
  rw [decide_eq_true_iff] at ht ⊢
  have h1 : (-d2).toNat ≤ (-d).toNat := by omega
  have h2 : d.toNat ≤ d2.toNat := by omega
  calc (2 * k - 1) ^ 400 * 10 ^ (-d2).toNat
      ≤ (2 * k - 1) ^ 400 * 10 ^ (-d).toNat :=
        Nat.mul_le_mul_left _ (Nat.pow_le_pow_right (by norm_num) h1)
    _ ≤ (65 - 2 * k) ^ 400 * 10 ^ d.toNat := ht
    _ ≤ (65 - 2 * k) ^ 400 * 10 ^ d2.toNat :=
        Nat.mul_le_mul_left _ (Nat.pow_le_pow_right (by norm_num) h2)

/-- The rating change only depends on, and grows with, `loserRep - winnerRep`. -/
theorem calculateRepChange_mono_diff {w l w2 l2 : Int} (h : l - w ≤ l2 - w2) :
    calculateRepChange w l ≤ calculateRepChange w2 l2 := by
  unfold calculateRepChange
  rw [← List.countP_eq_length_filter, ← List.countP_eq_length_filter]
  exact_mod_cast List.countP_mono_left (fun i _ hi => repThreshold_mono (i + 1) h hi)

/-- C7: for all integer ratings, `calculateRepChange w l` is
`round (32 * (1 - 1 / (1 + 10 ^ ((l - w) / 400))))` (round half up, exact arithmetic); it is
never negative, it does not grow when the winner rating is raised by 100, and more generally
it is non-increasing in the winner rating and non-decreasing in the loser rating. -/
theorem calculateRepChange_monotone (w l : Int) :
    calculateRepChange w l
      = ⌊(32 : ℝ) * (1 - 1 / (1 + (10 : ℝ) ^ ((((l - w : Int) : ℝ)) / 400))) + 1 / 2⌋ ∧
    0 ≤ calculateRepChange w l ∧
    calculateRepChange (w + 100) l ≤ calculateRepChange w l ∧
    (∀ w2, w ≤ w2 → calculateRepChange w2 l ≤ calculateRepChange w l) ∧
    (∀ l2, l ≤ l2 → calculateRepChange w l ≤ calculateRepChange w l2) :=
  ⟨calculateRepChange_eq_real w l, calculateRepChange_nonneg w l,
    calculateRepChange_mono_diff (by omega),
    fun _ h => calculateRepChange_mono_diff (by omega),
    fun _ h => calculateRepChange_mono_diff (by omega)⟩

theorem calculateRepChange_monotone_witness :
    calculateRepChange 1100 1000 ≤ calculateRepChange 1000 1000 ∧
    calculateRepChange 1000 1000 ≤ calculateRepChange 1000 1200 :=
  ⟨(calculateRepChange_monotone 1000 1000).2.2.2.1 1100 (by decide),
   (calculateRepChange_monotone 1000 1000).2.2.2.2 1200 (by decide)⟩

theorem expectedWin_1200_800 : expectedWin 1200 800 = 10 / 11 := by
  unfold expectedWin
  have h : (((800 - 1200 : Int) : ℝ)) / 400 = -1 := by norm_num
  rw [h, Real.rpow_neg_one]
  norm_num

/-- C8 (refuted as stated): for winner rating 1200 and loser rating 800 the expected score is
not within 0.07 of 0.985, and `calculateRepChange 1200 800` is neither 0 nor 1. -/
theorem favourite_scenario_not_as_stated :
    ¬ (|expectedWin 1200 800 - 0.985| < 0.07) ∧
    ¬ (calculateRepChange 1200 800 = 0 ∨ calculateRepChange 1200 800 = 1) := by
  constructor
  · rw [expectedWin_1200_800]
    have : ((10 : ℝ) / 11 - 0.985) = -(0.985 - 10 / 11) := by ring
    rw [this, abs_neg, abs_of_pos (by norm_num)]
    norm_num
  · decide

/-- C8 (amended): for winner rating 1200 and loser rating 800 the expected score
`1 / (1 + 10 ^ ((800 - 1200) / 400))` is `10 / 11` (about 0.909) and
`calculateRepChange 1200 800`, the rounding of `32 * (1 - 10 / 11)`, is 3. -/
theorem favourite_scenario :
    expectedWin 1200 800 = 10 / 11 ∧
    calculateRepChange 1200 800 = 3 ∧
    calculateRepChangeReal 1200 800 = 3 ∧
    calculateRepChange 1200 800 = ⌊(32 : ℝ) * (1 - 10 / 11) + 1 / 2⌋ := by
  refine ⟨expectedWin_1200_800, by decide, ?_, ?_⟩
  · rw [← calculateRepChange_eq_real]
    decide
  · rw [← expectedWin_1200_800]
    exact calculateRepChange_eq_real 1200 800

theorem get_updateUser (m : JsMap UserKey UserProfile) (k k2 : UserKey)
    (f : UserProfile → UserProfile) :
    JsMap.get (updateUser m k f) k2
      = if k2 = k then some (f (userOf m k)) else JsMap.get m k2 := by
  unfold updateUser
  by_cases hk : k2 = k
  · subst hk
    simp [JsMap.get_set_self]
  · rw [JsMap.get_set_of_ne _ _ hk, get_getUser]
    simp [hk]

theorem debateExpiry_idem (s : State) (t : DebateTimer) :
    debateExpiry (debateExpiry s t) t = debateExpiry s t := by
  cases hg : JsMap.get s.activeDebates t.debateId with
  | none =>
    have h1 : debateExpiry s t = s := by simp [debateExpiry, hg]
    rw [h1, h1]
  | some debate =>
    by_cases hs : debate.status = DebateStatus.active
    · have hg2 : JsMap.get (debateExpiry s t).activeDebates t.debateId
          = some { debate with status := DebateStatus.expired } := by
        simp [debateExpiry, hg, hs, JsMap.get_set_self]
      generalize debateExpiry s t = s2 at hg2
      simp [debateExpiry, hg2]
    · have h1 : debateExpiry s t = s := by simp [debateExpiry, hg, hs]
      rw [h1, h1]

theorem challengeExpiry_idem (s : State) (challengeId : ChallengeId) :
    challengeExpiry (challengeExpiry s challengeId) challengeId
      = challengeExpiry s challengeId := by
  have hg2 : JsMap.get (challengeExpiry s challengeId).pendingChallenges challengeId = none := by
    unfold challengeExpiry JsMap.has
    cases hg : JsMap.get s.pendingChallenges challengeId with
    | none => simpa using hg
    | some c => simpa using JsMap.get_delete_self _ _
  generalize challengeExpiry s challengeId = s2 at hg2
  simp [challengeExpiry, JsMap.has, hg2]

/-- C11: the expiry actions are check-then-act. Fired on a debate that is stored with status
active, the debate timer sets the status to expired, keeps the debate in the store, lowers
the `activeDebates` of the captured challenger and opponent by exactly 1 each and changes no
rating, wins, losses or totalDebates, no other profile, no other debate and no challenge; in
a reachable state the captured users of a scheduled timer are the two participants of the
debate. Fired on an absent debate or on one that is no longer active it returns the state
unchanged, so firing twice equals firing once. The challenge timer removes the challenge if
it is still pending and is otherwise a no-op, and firing it twice equals firing it once. -/
theorem expiry_check_then_act (s : State) (t : DebateTimer) (challengeId : ChallengeId) :
    (∀ debate, JsMap.get s.activeDebates t.debateId = some debate →
      debate.status = DebateStatus.active → t.challenger ≠ t.opponent →
      JsMap.get (debateExpiry s t).activeDebates t.debateId
        = some { debate with status := DebateStatus.expired } ∧
      (∀ id, id ≠ t.debateId →
        JsMap.get (debateExpiry s t).activeDebates id = JsMap.get s.activeDebates id) ∧
      JsMap.get (debateExpiry s t).userData (some t.challenger) = some
        { reputation := (userOf s.userData (some t.challenger)).reputation,
          wins := (userOf s.userData (some t.challenger)).wins,
          losses := (userOf s.userData (some t.challenger)).losses,
          activeDebates := (userOf s.userData (some t.challenger)).activeDebates - 1,
          totalDebates := (userOf s.userData (some t.challenger)).totalDebates } ∧
      JsMap.get (debateExpiry s t).userData (some t.opponent) = some
        { reputation := (userOf s.userData (some t.opponent)).reputation,
          wins := (userOf s.userData (some t.opponent)).wins,
          losses := (userOf s.userData (some t.opponent)).losses,
          activeDebates := (userOf s.userData (some t.opponent)).activeDebates - 1,
          totalDebates := (userOf s.userData (some t.opponent)).totalDebates } ∧
      (∀ k : UserKey, k ≠ some t.challenger → k ≠ some t.opponent →
        JsMap.get (debateExpiry s t).userData k = JsMap.get s.userData k) ∧
      (debateExpiry s t).pendingChallenges = s.pendingChallenges) ∧
    (Reachable s → t ∈ s.debateTimers →
      t.challenger ≠ t.opponent ∧
      ∀ debate, JsMap.get s.activeDebates t.debateId = some debate →
        debate.participants = [t.challenger, t.opponent]) ∧
    (JsMap.get s.activeDebates t.debateId = none → debateExpiry s t = s) ∧
    (∀ debate, JsMap.get s.activeDebates t.debateId = some debate →
      debate.status ≠ DebateStatus.active → debateExpiry s t = s) ∧
    debateExpiry (debateExpiry s t) t = debateExpiry s t ∧
    (JsMap.get s.pendingChallenges challengeId = none → challengeExpiry s challengeId = s) ∧
    (∀ c, JsMap.get s.pendingChallenges challengeId = some c →
      challengeExpiry s challengeId =
        { s with pendingChallenges := JsMap.delete s.pendingChallenges challengeId } ∧
      JsMap.get (challengeExpiry s challengeId).pendingChallenges challengeId = none ∧
      ∀ id, id ≠ challengeId →
        JsMap.get (challengeExpiry s challengeId).pendingChallenges id
          = JsMap.get s.pendingChallenges id) ∧
    challengeExpiry (challengeExpiry s challengeId) challengeId
      = challengeExpiry s challengeId := by
  refine ⟨?_, ?_, ?_, ?_, debateExpiry_idem s t, ?_, ?_, challengeExpiry_idem s challengeId⟩
  · intro debate hg hs hne
    have hres : debateExpiry s t =
        { s with
          userData := updateUser (updateUser s.userData (some t.challenger)
              (fun u => { u with activeDebates := u.activeDebates - 1 })) (some t.opponent)
              (fun u => { u with activeDebates := u.activeDebates - 1 }),
          activeDebates := JsMap.set s.activeDebates t.debateId
            { debate with status := DebateStatus.expired } } := by
      simp [debateExpiry, hg, hs]
    have hco : (some t.challenger : UserKey) ≠ some t.opponent := by simpa using hne
    rw [hres]
    refine ⟨JsMap.get_set_self _ _ _, fun id hid => JsMap.get_set_of_ne _ _ hid, ?_, ?_, ?_,
      rfl⟩
    · simp only [get_updateUser, hco, if_false, if_true]
    · simp only [get_updateUser, userOf_updateUser, Ne.symm hco, if_false, if_true]
    · intro k hk1 hk2
      simp only [get_updateUser, hk1, hk2, if_false]
  · intro hr ht
    exact (inv_reachable hr).timer t ht
  · intro hg
    simp [debateExpiry, hg]
  · intro debate hg hs
    simp [debateExpiry, hg, hs]
  · intro hg
    simp [challengeExpiry, JsMap.has, hg]
  · intro c hg
    have hres : challengeExpiry s challengeId =
        { s with pendingChallenges := JsMap.delete s.pendingChallenges challengeId } := by
      simp [challengeExpiry, JsMap.has, hg]
    rw [hres]
    exact ⟨rfl, JsMap.get_delete_self _ _, fun id hid => JsMap.get_delete_of_ne _ hid⟩

theorem expiry_check_then_act_witness :
    JsMap.get (debateExpiry demoAccepted ⟨20, 1, 2⟩).activeDebates 20
      = some { demoDebate with status := DebateStatus.expired } ∧
    JsMap.get (debateExpiry demoAccepted ⟨20, 1, 2⟩).userData (some 1) = some
      { reputation := 1000, wins := 0, losses := 0, activeDebates := 0, totalDebates := 0 } ∧
    debateExpiry (handleEndDebate demoAccepted 20 1 2).1 ⟨20, 1, 2⟩
      = (handleEndDebate demoAccepted 20 1 2).1 ∧
    challengeExpiry demoAccepted 10 = demoAccepted :=
  ⟨((expiry_check_then_act demoAccepted ⟨20, 1, 2⟩ 10).1 demoDebate
      (by decide) rfl (by decide)).1,
   ((expiry_check_then_act demoAccepted ⟨20, 1, 2⟩ 10).1 demoDebate
      (by decide) rfl (by decide)).2.2.1.trans (by decide),
   (expiry_check_then_act (handleEndDebate demoAccepted 20 1 2).1 ⟨20, 1, 2⟩ 10).2.2.1
      (by decide),
   (expiry_check_then_act demoAccepted ⟨20, 1, 2⟩ 10).2.2.2.2.2.1 (by decide)⟩

/-- The outcomes of `handleChallenge` in source order: self-challenge, bot opponent,
challenger at the limit, opponent at the limit; then, with all four checks passed, a throw
when the interaction has no guild or no channel (nothing stored), and otherwise the
challenge is stored under the drawn id and the handler replies when the embed builder
accepts the topic and throws when it does not. The debate store never changes and no
existing profile changes. -/
theorem handleChallenge_cases (s : State) (r : ChallengeRequest) (challengeId : ChallengeId) :
    (r.opponent = r.challenger → handleChallenge s r challengeId = (s, Reply.selfChallenge)) ∧
    (r.opponent ≠ r.challenger → r.opponentBot = true →
      handleChallenge s r challengeId = (s, Reply.botOpponent)) ∧
    (r.opponent ≠ r.challenger → r.opponentBot = false →
      (userOf s.userData (some r.challenger)).activeDebates ≥ 3 →
      (handleChallenge s r challengeId).2 = Reply.challengerLimit ∧
      (handleChallenge s r challengeId).1.pendingChallenges = s.pendingChallenges) ∧
    (r.opponent ≠ r.challenger → r.opponentBot = false →
      ¬ (userOf s.userData (some r.challenger)).activeDebates ≥ 3 →
      (userOf s.userData (some r.opponent)).activeDebates ≥ 3 →
      (handleChallenge s r challengeId).2 = Reply.opponentLimit ∧
      (handleChallenge s r challengeId).1.pendingChallenges = s.pendingChallenges) ∧
    (r.opponent ≠ r.challenger → r.opponentBot = false →
      ¬ (userOf s.userData (some r.challenger)).activeDebates ≥ 3 →
      ¬ (userOf s.userData (some r.opponent)).activeDebates ≥ 3 →
      ((r.guildId = none ∨ r.channelId = none) →
        (handleChallenge s r challengeId).2 = Reply.threw ∧
        (handleChallenge s r challengeId).1.pendingChallenges = s.pendingChallenges) ∧
      (∀ guildId channelId, r.guildId = some guildId → r.channelId = some channelId →
        (handleChallenge s r challengeId).2 =
          (if embedFieldValueOk r.topic then Reply.challengeIssued else Reply.threw) ∧
        (handleChallenge s r challengeId).1.pendingChallenges =
          JsMap.set s.pendingChallenges challengeId
            { id := challengeId, challenger := r.challenger, opponent := r.opponent,
              topic := r.topic, duration := durationOrDefault r.duration, createdAt := r.now,
              guildId := guildId, channelId := channelId })) ∧
    (handleChallenge s r challengeId).1.activeDebates = s.activeDebates ∧
    (∀ k p, JsMap.get s.userData k = some p →
      JsMap.get (handleChallenge s r challengeId).1.userData k = some p) := by
  have hkeep : ∀ k p, JsMap.get s.userData k = some p →
      JsMap.get (getUser (getUser s.userData (some r.challenger)) (some r.opponent)) k
        = some p :=
    fun k p hg => get_getUser_of_some _ _ _ _ (get_getUser_of_some _ _ _ _ hg)
  refine ⟨?_, ?_, ?_, ?_, ?_, (handleChallenge_debates s r challengeId).1, ?_⟩
  · intro h1
    simp [handleChallenge, h1]
  · intro h1 h2
    simp [handleChallenge, h1, h2]
  · intro h1 h2 h3
    simp [handleChallenge, h1, h2, userOf_getUser, h3]
  · intro h1 h2 h3 h4
    simp [handleChallenge, h1, h2, userOf_getUser, h3, h4]
  · intro h1 h2 h3 h4
    constructor
    · intro hnone
      unfold handleChallenge
      simp only [h1, h2, userOf_getUser, h3, h4, if_false, Bool.false_eq_true]
      split
      · rename_i hg hc
        rcases hnone with e | e
        · rw [e] at hg; cases hg
        · rw [e] at hc; cases hc
      · exact ⟨rfl, rfl⟩
    · intro guildId channelId hg hc
      unfold handleChallenge
      simp only [h1, h2, userOf_getUser, h3, h4, if_false, Bool.false_eq_true, hg, hc]
      split_ifs <;> exact ⟨rfl, rfl⟩
  · intro k p hg
    unfold handleChallenge
    simp only
    split_ifs
    all_goals first
      | exact hg
      | exact hkeep k p hg
      | (split <;> exact hkeep k p hg)

set_option maxRecDepth 100000 in
/-- C9 (the code at the failing inputs): user 1 challenges the human user 2 from a guild
with a topic of 1025 characters while neither has an active debate. None of the three
rejections applies, yet the handler does not succeed: it stores the challenge under the drawn
id and then throws while building the embed, so no reply is sent and the statements after
the throw, among them the scheduling of the expiry timer, never run. The same request with a
short topic is issued normally. Sent outside a guild, the request throws before anything is
stored, after both profiles were created. -/
theorem handleChallenge_throws_after_store :
    (longTopicRequest.opponent ≠ longTopicRequest.challenger ∧
      longTopicRequest.opponentBot = false ∧
      ¬ (userOf State.empty.userData (some longTopicRequest.challenger)).activeDebates ≥ 3 ∧
      ¬ (userOf State.empty.userData (some longTopicRequest.opponent)).activeDebates ≥ 3) ∧
    jsLength longTopicRequest.topic = 1025 ∧
    handleChallenge State.empty longTopicRequest 10 =
      ({ userData := [(some 1, newUser), (some 2, newUser)],
         activeDebates := [],
         pendingChallenges :=
           [(10, { id := 10, challenger := 1, opponent := 2, topic := longTopic,
                   duration := 10, createdAt := 0, guildId := 7, channelId := 8 })],
         debateTimers := [] },
       Reply.threw) ∧
    (handleChallenge State.empty (demoRequest 1 2) 10).2 = Reply.challengeIssued ∧
    handleChallenge State.empty directMessageRequest 10 =
      ({ userData := [(some 1, newUser), (some 2, newUser)],
         activeDebates := [],
         pendingChallenges := [],
         debateTimers := [] },
       Reply.threw) := by
  refine ⟨by decide, by decide, by decide, by decide, by decide⟩

end DebateBot
